import Mathlib

/-!
# Shallow embedding of the matshitlab core (Workspace / Signal / Matrix)

The repository ships two variants of each core file (`Signal.ts`,
`Matrix.ts`, `Workspace.ts`); the claims reference both, so this file embeds
the first variant (the `SimulationResult`/`SimulationError` one) in the `V1`
namespace and the second (the plain one, which carries `fft`, `transpose`,
and the scalar-aware `multiply`) in the `V2` namespace.

Conventions of the embedding:
* JS strings are `List Char`; `jsSplit`, `jsTrim`, … mirror the string
  methods the source uses (`split`, `trim`, `indexOf`, `substring`).
* JS numbers that the evaluator manipulates (literals, counts, rates) are
  rationals; sample values, which flow through `Math.sin`/`Math.exp`/…, are
  modelled by `JsNum`: an exact real together with the IEEE special values
  `Infinity`, `-Infinity` and `NaN`, with the IEEE propagation rules.
  Rounding of finite arithmetic is not modelled (finite ops are exact).
* A thrown JS exception is an `Except.error` carrying `JsErr`: either a
  classified `SimulationError` (with its optional wrapped cause), a plain
  `Error`, or an engine `TypeError` (property access on `undefined`).
* Loops whose termination is not structural (the FFT recursion, the EMD
  sifting `do/while`, the expression evaluator's mutual recursion) take a
  fuel argument; every theorem below either supplies enough fuel or
  quantifies over it.
-/

namespace Mats

/-- JS strings, modelled as their character lists. -/
abbrev Str := List Char

/-- The error classification of `SimulationError` (`types/index.ts`). -/
inductive ErrKind where
  | validation
  | computation
  | runtime
  | memory
deriving DecidableEq, Repr

/-- A thrown JS exception: a classified `SimulationError` (message plus the
optional wrapped original error), a plain `Error`, or an engine `TypeError`
(reading a property of `undefined`). -/
inductive JsErr where
  | simErr (kind : ErrKind) (msg : Str) (cause : Option JsErr)
  | jsError (msg : Str)
  | typeError

/-- `err instanceof Error ? err.message : String(err)` — every modelled
exception is an `Error`, so this extracts the message; the engine message of
the `TypeError` raised by the FFT's out-of-bounds access is fixed. -/
def errMessage : JsErr → Str
  | .simErr _ msg _ => msg
  | .jsError msg => msg
  | .typeError => "Cannot read properties of undefined".toList

/-- The whitespace characters `String.prototype.trim` strips (ASCII part). -/
def isSpaceChar (c : Char) : Bool :=
  c = ' ' ∨ c = '\t' ∨ c = '\n' ∨ c = '\r'

/-- `s.trim()`: strip leading and trailing whitespace. -/
def jsTrim (s : Str) : Str :=
  ((s.dropWhile isSpaceChar).reverse.dropWhile isSpaceChar).reverse

/-- `s.split(sep)` for a one-character separator: split on every occurrence
of `sep`; always returns at least one (possibly empty) piece. -/
def jsSplit (sep : Char) : Str → List Str
  | [] => [[]]
  | c :: rest =>
    if c = sep then [] :: jsSplit sep rest
    else
      match jsSplit sep rest with
      | [] => [[c]]
      | h :: t => (c :: h) :: t

/-- Index of the first occurrence of the two-character sequence `//`
(`line.indexOf("//")`), if any. -/
def idxOfSlashSlash : Str → Option ℕ
  | '/' :: '/' :: _ => some 0
  | _ :: rest => (idxOfSlashSlash rest).map (· + 1)
  | [] => none

/-- `s.includes(c)` for a one-character needle. -/
def jsIncludes (c : Char) (s : Str) : Bool := s.any (fun d => d = c)

/-- `line.startsWith("//")`. -/
def startsWithSlashSlash : Str → Bool
  | '/' :: '/' :: _ => true
  | _ => false

/-- Decimal digit value. -/
def digitVal (c : Char) : Option ℕ :=
  if '0' ≤ c ∧ c ≤ '9' then some (c.toNat - '0'.toNat) else none

/-- Accumulate digits into a natural number; fails on a non-digit or on an
empty digit string. -/
def parseDigits (acc : ℕ) : Str → Option ℕ
  | [] => some acc
  | c :: rest =>
    match digitVal c with
    | some d => parseDigits (acc * 10 + d) rest
    | none => none

/-- Unsigned decimal numeral `digits` or `digits.digits` as a rational. -/
def parseDec : Str → Option ℚ
  | s =>
    match jsSplit '.' s with
    | [intPart] =>
      if intPart = [] then none
      else (parseDigits 0 intPart).map (fun n => (n : ℚ))
    | [intPart, fracPart] =>
      if intPart = [] ∧ fracPart = [] then none
      else
        match parseDigits 0 intPart, parseDigits 0 fracPart with
        | some n, some f => some ((n : ℚ) + (f : ℚ) / (10 : ℚ) ^ fracPart.length)
        | _, _ => none
    | _ => none

/-- The `Number(s)` coercion, restricted to the plain decimal numerals the
notebook language uses (optional sign, digits, optional fraction); the
whitespace-trimming and the empty-string-is-zero rule of `Number` are
modelled, exotic forms (exponents, hex, `Infinity`) are not. `none` stands
for `NaN`, so `!isNaN(Number(s))` is `(jsNumber s).isSome`. -/
def jsNumber (s : Str) : Option ℚ :=
  match jsTrim s with
  | [] => some 0
  | '-' :: rest => (parseDec rest).map (fun q => -q)
  | '+' :: rest => parseDec rest
  | t => parseDec t

/-! ## JS numbers with IEEE special values

Finite values are exact reals (no rounding); `Infinity`, `-Infinity` and
`NaN` follow the IEEE-754 propagation rules that the JS `Math` functions
and arithmetic operators implement. The distinction between `+0` and `-0`
is not modelled (`fin 0` is `+0`); no claim depends on it. -/

/-- A JS `number`: an exact finite real, `Infinity`, `-Infinity`, or `NaN`. -/
inductive JsNum where
  | fin (x : ℝ)
  | inf
  | ninf
  | nan

/-- `isNaN(v)`. -/
def JsNum.isNaN : JsNum → Prop
  | .nan => True
  | _ => False

instance (v : JsNum) : Decidable v.isNaN := by
  cases v <;> simp only [JsNum.isNaN] <;> infer_instance

noncomputable def jsAdd : JsNum → JsNum → JsNum
  | .fin a, .fin b => .fin (a + b)
  | .fin _, .inf => .inf
  | .fin _, .ninf => .ninf
  | .inf, .fin _ => .inf
  | .ninf, .fin _ => .ninf
  | .inf, .inf => .inf
  | .ninf, .ninf => .ninf
  | .inf, .ninf => .nan
  | .ninf, .inf => .nan
  | _, _ => .nan

noncomputable def jsSub : JsNum → JsNum → JsNum
  | .fin a, .fin b => .fin (a - b)
  | .fin _, .inf => .ninf
  | .fin _, .ninf => .inf
  | .inf, .fin _ => .inf
  | .ninf, .fin _ => .ninf
  | .inf, .ninf => .inf
  | .ninf, .inf => .ninf
  | .inf, .inf => .nan
  | .ninf, .ninf => .nan
  | _, _ => .nan

/-- Multiplication: `±Infinity * 0` is `NaN`, otherwise signs multiply. -/
noncomputable def jsMul : JsNum → JsNum → JsNum
  | .fin a, .fin b => .fin (a * b)
  | .fin a, .inf => if a > 0 then .inf else if a < 0 then .ninf else .nan
  | .fin a, .ninf => if a > 0 then .ninf else if a < 0 then .inf else .nan
  | .inf, .fin b => if b > 0 then .inf else if b < 0 then .ninf else .nan
  | .ninf, .fin b => if b > 0 then .ninf else if b < 0 then .inf else .nan
  | .inf, .inf => .inf
  | .ninf, .ninf => .inf
  | .inf, .ninf => .ninf
  | .ninf, .inf => .ninf
  | _, _ => .nan

/-- Division: `x/0` is `±Infinity` by the sign of `x` (`0/0` is `NaN`),
`finite/±Infinity` is `0`, `±Infinity/±Infinity` is `NaN`. -/
noncomputable def jsDiv : JsNum → JsNum → JsNum
  | .fin a, .fin b =>
    if b = 0 then (if a > 0 then .inf else if a < 0 then .ninf else .nan)
    else .fin (a / b)
  | .fin _, .inf => .fin 0
  | .fin _, .ninf => .fin 0
  | .inf, .fin b => if b < 0 then .ninf else .inf
  | .ninf, .fin b => if b < 0 then .inf else .ninf
  | _, _ => .nan

/-- `Math.sin`: `NaN` on any non-finite argument. -/
noncomputable def jsSin : JsNum → JsNum
  | .fin x => .fin (Real.sin x)
  | _ => .nan

/-- `Math.cos`: `NaN` on any non-finite argument. -/
noncomputable def jsCos : JsNum → JsNum
  | .fin x => .fin (Real.cos x)
  | _ => .nan

/-- `Math.exp`. -/
noncomputable def jsExp : JsNum → JsNum
  | .fin x => .fin (Real.exp x)
  | .inf => .inf
  | .ninf => .fin 0
  | .nan => .nan

/-- `Math.log`: `NaN` for negative (or `NaN`) arguments, `-Infinity` at `0`. -/
noncomputable def jsLog : JsNum → JsNum
  | .fin x => if x > 0 then .fin (Real.log x) else if x = 0 then .ninf else .nan
  | .inf => .inf
  | _ => .nan

/-- `Math.sqrt`: `NaN` for negative (or `NaN`) arguments. -/
noncomputable def jsSqrt : JsNum → JsNum
  | .fin x => if x < 0 then .nan else .fin (Real.sqrt x)
  | .inf => .inf
  | _ => .nan

/-- `Math.abs`. -/
noncomputable def jsAbs : JsNum → JsNum
  | .fin x => .fin |x|
  | .inf => .inf
  | .ninf => .inf
  | .nan => .nan

/-- `Math.sign`. -/
noncomputable def jsSign : JsNum → JsNum
  | .fin x => .fin (if x > 0 then 1 else if x < 0 then -1 else 0)
  | .inf => .fin 1
  | .ninf => .fin (-1)
  | .nan => .nan

/-- The comparison `a < b` (false whenever an operand is `NaN`). -/
noncomputable def jsLt : JsNum → JsNum → Bool
  | .fin a, .fin b => decide (a < b)
  | .fin _, .inf => true
  | .ninf, .fin _ => true
  | .ninf, .inf => true
  | _, _ => false

/-- The comparison `a > b` (false whenever an operand is `NaN`). -/
noncomputable def jsGt (a b : JsNum) : Bool := jsLt b a

/-- Render a natural number in decimal. -/
def showNat (n : ℕ) : Str := (Nat.repr n).toList

/-- `String(q)` for the rationals the evaluator prints: integers render
exactly; the decimal rendering of non-integers is not modelled and gets a
fixed token (no claim observes it). -/
def showQ (q : ℚ) : Str :=
  if q.den = 1 then
    (if q.num < 0 then '-' :: showNat q.num.natAbs else showNat q.num.natAbs)
  else "<decimal>".toList

namespace V1

/-! ## Variant 1 `Signal.ts`: the `SimulationResult`/`SimulationError` Signal.

`SimulationResult` metadata (timing, memory, precision) is informational
and consumed by nobody, so operations here return only the payload inside
`Except JsErr`; the per-signal provenance metadata map is likewise not
modelled (no operation reads it). -/

/-- A variant-1 `Signal`: `Float64Array` samples plus a sample rate. -/
structure Signal where
  data : List JsNum
  sampleRate : ℚ

/-- `validateData`: the constructor accepts only arrays of numbers that are
not `NaN` (note `±Infinity` passes `!isNaN`). -/
def validateData (data : List JsNum) : Except JsErr Unit :=
  if ∀ v ∈ data, ¬v.isNaN then .ok ()
  else .error (.simErr .validation
    "Invalid signal data: array must contain only numbers".toList none)

/-- `new Signal(data, sampleRate)`. -/
def mkSignal (data : List JsNum) (sampleRate : ℚ) : Except JsErr Signal :=
  (validateData data).map (fun _ => ⟨data, sampleRate⟩)

/-- One sample of `generateSine`:
`amplitude * Math.sin(omega * i / sampleRate + phase)`, `omega = 2πf`. -/
noncomputable def sineSample (frequency sampleRate amplitude phase : ℚ)
    (i : ℕ) : JsNum :=
  jsMul (.fin amplitude)
    (jsSin (jsAdd
      (jsDiv (jsMul (jsMul (jsMul (.fin 2) (.fin Real.pi)) (.fin frequency))
        (.fin i)) (.fin sampleRate))
      (.fin phase)))

/-- `Signal.generateSine`: `floor(duration*sampleRate)` samples (a negative
count makes `new Float64Array` throw a `RangeError`, which the `catch`
rewraps as a computation error). -/
noncomputable def generateSine (frequency duration sampleRate : ℚ)
    (amplitude : ℚ := 1) (phase : ℚ := 0) : Except JsErr Signal :=
  if ⌊duration * sampleRate⌋ < 0 then
    .error (.simErr .computation "Failed to generate sine signal".toList
      (some (.jsError "Invalid typed array length".toList)))
  else
    ((List.range (⌊duration * sampleRate⌋).toNat).map
        (sineSample frequency sampleRate amplitude phase)
      |> fun data => mkSignal data sampleRate).mapError
      (fun e => .simErr .computation "Failed to generate sine signal".toList
        (some e))

/-- One sample of `generateSquare`:
`amplitude * Math.sign(Math.sin((2π * frequency * i) / sampleRate))`. -/
noncomputable def squareSample (frequency sampleRate amplitude : ℚ)
    (i : ℕ) : JsNum :=
  jsMul (.fin amplitude)
    (jsSign (jsSin (jsDiv
      (jsMul (jsMul (jsMul (.fin 2) (.fin Real.pi)) (.fin frequency)) (.fin i))
      (.fin sampleRate))))

/-- `Signal.generateSquare`. -/
noncomputable def generateSquare (frequency duration sampleRate : ℚ)
    (amplitude : ℚ := 1) : Except JsErr Signal :=
  if ⌊duration * sampleRate⌋ < 0 then
    .error (.simErr .computation "Failed to generate square signal".toList
      (some (.jsError "Invalid typed array length".toList)))
  else
    ((List.range (⌊duration * sampleRate⌋).toNat).map
        (squareSample frequency sampleRate amplitude)
      |> fun data => mkSignal data sampleRate).mapError
      (fun e => .simErr .computation "Failed to generate square signal".toList
        (some e))

inductive ChirpMethod where
  | linear
  | exponential
deriving DecidableEq

/-- The option bag of `generateChirp`; `method` and `sampleRate` are
optional with defaults `linear` / `44100`. -/
structure ChirpOptions where
  startFreq : ℚ
  endFreq : ℚ
  duration : ℚ
  method : Option ChirpMethod := none
  sampleRate : Option ℚ := none

/-- One sample of the linear chirp:
`Math.sin(2π * (startFreq * t + freqSlope * t * t / 2))`, `t = i/sampleRate`. -/
noncomputable def chirpLinearSample (startFreq endFreq duration rate : ℚ)
    (i : ℕ) : JsNum :=
  let freqSlope := jsDiv (jsSub (.fin endFreq) (.fin startFreq)) (.fin duration)
  let t := jsDiv (.fin i) (.fin rate)
  jsSin (jsMul (jsMul (.fin 2) (.fin Real.pi))
    (jsAdd (jsMul (.fin startFreq) t)
      (jsDiv (jsMul (jsMul freqSlope t) t) (.fin 2))))

/-- One sample of the exponential chirp:
`Math.sin(2π * startFreq * (Math.exp(freqScale * t) - 1) / freqScale)` with
`freqScale = Math.log(endFreq / startFreq) / duration`. -/
noncomputable def chirpExpSample (startFreq endFreq duration rate : ℚ)
    (i : ℕ) : JsNum :=
  let freqScale := jsDiv (jsLog (jsDiv (.fin endFreq) (.fin startFreq)))
    (.fin duration)
  let t := jsDiv (.fin i) (.fin rate)
  jsSin (jsDiv
    (jsMul (jsMul (jsMul (.fin 2) (.fin Real.pi)) (.fin startFreq))
      (jsSub (jsExp (jsMul freqScale t)) (.fin 1)))
    freqScale)

/-- `Signal.generateChirp`: no `try`/`catch`, so the `RangeError` of a
negative sample count and any validation error raised by the `Signal`
constructor propagate to the caller unclassified / as thrown. -/
noncomputable def generateChirp (o : ChirpOptions) : Except JsErr Signal :=
  let method := o.method.getD .linear
  let rate := o.sampleRate.getD 44100
  if ⌊o.duration * rate⌋ < 0 then
    .error (.jsError "Invalid typed array length".toList)
  else
    mkSignal
      ((List.range (⌊o.duration * rate⌋).toNat).map
        (match method with
          | .linear => chirpLinearSample o.startFreq o.endFreq o.duration rate
          | .exponential => chirpExpSample o.startFreq o.endFreq o.duration rate))
      rate

inductive WindowType where
  | hamming
  | hanning
deriving DecidableEq

/-- The window factor at index `i` of an `N`-sample signal. For `hamming`
it is `0.54 - 0.46 * Math.cos(2π*i / (N - 1))`; note that for `N = 1` the
argument is `0/0 = NaN`, there is no guard. -/
noncomputable def windowFactor (w : WindowType) (n : ℕ) (i : ℕ) : JsNum :=
  match w with
  | .hamming =>
    jsSub (.fin 0.54)
      (jsMul (.fin 0.46)
        (jsCos (jsDiv (jsMul (jsMul (.fin 2) (.fin Real.pi)) (.fin i))
          (.fin ((n : ℤ) - 1)))))
  | .hanning =>
    jsMul (.fin 0.5)
      (jsSub (.fin 1)
        (jsCos (jsDiv (jsMul (jsMul (.fin 2) (.fin Real.pi)) (.fin i))
          (.fin ((n : ℤ) - 1)))))

/-- `Signal.applyWindow`: multiply elementwise by the window curve, then
construct the result Signal; the `catch` rewraps any failure (in practice
only the constructor's `NaN` rejection) as a computation error. -/
noncomputable def applyWindow (s : Signal) (w : WindowType) :
    Except JsErr Signal :=
  (mkSignal
      ((List.range s.data.length).map (fun i =>
        jsMul (s.data.getD i .nan) (windowFactor w s.data.length i)))
      s.sampleRate).mapError
    (fun e => .simErr .computation "Failed to apply window".toList (some e))

/-- `computeEnvelope`, extrema detection: interior indices that are strict
local maxima (`type = "max"`) or minima (`type = "min"`); comparisons
against `NaN` are false. -/
noncomputable def findExtrema (data : List JsNum) (isMax : Bool) :
    List (ℕ × JsNum) :=
  (List.range data.length).filterMap (fun i =>
    if 1 ≤ i ∧ i + 1 < data.length then
      let v := data.getD i .nan
      let keep :=
        if isMax then
          jsGt v (data.getD (i - 1) .nan) ∧ jsGt v (data.getD (i + 1) .nan)
        else
          jsLt v (data.getD (i - 1) .nan) ∧ jsLt v (data.getD (i + 1) .nan)
      if keep then some (i, v) else none
    else none)

/-- `computeEnvelope`, interpolation: at each index the inverse-squared-
distance weighted mean of the extrema values (`weight = 1/|i-idx|²`, which
is `Infinity` at an extremum index, and `0/0 = NaN` when there are no
extrema). -/
noncomputable def computeEnvelope (data : List JsNum) (isMax : Bool) :
    List JsNum :=
  let extrema := findExtrema data isMax
  (List.range data.length).map (fun i =>
    let acc := extrema.foldl
      (fun (nd : JsNum × JsNum) e =>
        let w := jsDiv (.fin 1) (.fin (|(i : ℝ) - (e.1 : ℝ)| ^ 2))
        (jsAdd nd.1 (jsMul e.2 w), jsAdd nd.2 w))
      (.fin 0, .fin 0)
    jsDiv acc.1 acc.2)

/-- `checkIMFCriterion`: the L2 norm of the elementwise difference is below
the fixed threshold `0.05` (false whenever the norm is `NaN`). -/
noncomputable def checkIMFCriterion (current previous : List JsNum) : Bool :=
  let sum := (List.range current.length).foldl
    (fun acc i =>
      let diff := jsAbs (jsSub (current.getD i .nan) (previous.getD i .nan))
      jsAdd acc (jsMul diff diff))
    (.fin 0)
  jsLt (jsSqrt sum) (.fin 0.05)

/-- The body of one sifting pass: subtract the mean of the max/min
envelopes from the working signal. -/
noncomputable def siftStep (imf : List JsNum) : List JsNum :=
  let maxEnv := computeEnvelope imf true
  let minEnv := computeEnvelope imf false
  let mean := maxEnv.mapIdx (fun i v =>
    jsDiv (jsAdd v (minEnv.getD i .nan)) (.fin 2))
  imf.mapIdx (fun i v => jsSub v (mean.getD i .nan))

/-- The `do`/`while` sifting loop of `decompose`: iterate `siftStep` until
`checkIMFCriterion` holds. The loop need not terminate (a `NaN` anywhere
makes the criterion permanently false), so it takes fuel; `none` means the
fuel ran out before the source loop would have exited. -/
noncomputable def sift : ℕ → List JsNum → Option (List JsNum)
  | 0, _ => none
  | fuel + 1, imf =>
    let next := siftStep imf
    if checkIMFCriterion next imf then some next else sift fuel next

/-- The per-mode loop of `decompose` for `method = "emd"`: sift an IMF out
of the residual, wrap it in a `Signal` (whose constructor can throw), carry
the residual forward. Returns the list of modes the source pushes into its
local `modes` array. -/
noncomputable def emdLoop (fuel : ℕ) :
    List JsNum → ℕ → Option (Except JsErr (List Signal))
  | _, 0 => some (.ok [])
  | residual, k + 1 =>
    match sift fuel residual with
    | none => none
    | some imf =>
      match mkSignal imf 0 with
      | .error e => some (.error e)
      | .ok _ =>
        (emdLoop fuel (residual.mapIdx (fun i v =>
            jsSub v (imf.getD i .nan))) k).map
          (fun r => r.map (fun modes => Signal.mk imf 0 :: modes))

inductive DecompMethod where
  | emd
  | ssa
  | pca
deriving DecidableEq

/-- `Signal.decompose`: for `"emd"` run the sifting loops, but return
`{ data: [] }` — the local `modes` array is discarded ("Simplified for
example" in the source), so the payload is always the empty list. The
sample rate stored in the pushed mode Signals is irrelevant to every
observable of `decompose` and is modelled as `0`. -/
noncomputable def decompose (fuel : ℕ) (s : Signal) (method : DecompMethod)
    (numModes : ℕ) : Option (Except JsErr (List Signal)) :=
  match method with
  | .emd => (emdLoop fuel s.data numModes).map (fun r => r.map (fun _ => []))
  | _ => some (.ok [])

/-! ## Variant 1 `Workspace.ts`

The evaluator's values, environment, and the statement/expression pipeline
`execute` → `executeLine` → `evaluateExpression` → `evaluateFunctionCall`
→ `parseArguments`. The `history` array is written but never read by any
modelled observable and is not carried. -/

/-- The four built-in generator functions registered at construction. The
environment stores them as tags (the only function values a Workspace can
ever hold are these closures, possibly rebound under other names). -/
inductive Builtin where
  | sine
  | square
  | chirp
  | matrix
deriving DecidableEq

/-- Variant-1 `Matrix.validateData`: `data[0]` must be an array (an empty
outer list has `data[0] === undefined`) and all rows must have the length
of the first. -/
def validateMat (data : List (List ℝ)) : Except JsErr Unit :=
  if data.length = 0 then
    .error (.simErr .validation "Invalid matrix data: expected 2D array".toList
      none)
  else if ∀ row ∈ data, row.length = (data.headD []).length then .ok ()
  else
    .error (.simErr .validation
      "Invalid matrix data: rows must have equal length".toList none)

/-- The grid built by variant-1 `multiply`'s triple loop:
`result[i][j] = Σ_{k < p} a[i][k] * b[k][j]` with `m = a.length`,
`n = b[0].length`, `p = b.length`, summed left to right by `+=`.
Out-of-range reads (impossible for validated rectangular operands) are
modelled as `0`. -/
def mulGrid (a b : List (List ℝ)) : List (List ℝ) :=
  (List.range a.length).map (fun i =>
    (List.range (b.headD []).length).map (fun j =>
      (List.range b.length).foldl
        (fun sum k => sum + (a.getD i []).getD k 0 * (b.getD k []).getD j 0)
        0))

/-- Variant-1 `Matrix.multiply`: inside the `try`, mismatched inner
dimensions raise a validation error and the result is passed to the
`Matrix` constructor; the `catch` rewraps whatever was thrown as a
computation-classified "Matrix multiplication failed". -/
def matMul (a b : List (List ℝ)) : Except JsErr (List (List ℝ)) :=
  (if (a.headD []).length ≠ b.length then
      .error (.simErr .validation
        "Invalid matrix dimensions for multiplication".toList none)
    else
      (validateMat (mulGrid a b)).map (fun _ => mulGrid a b)).mapError
    (fun e => .simErr .computation "Matrix multiplication failed".toList
      (some e))

/-- A Workspace slot value: `Signal | Matrix | number | Function`. -/
inductive WsValue where
  | num (q : ℚ)
  | sig (s : Signal)
  | mat (m : List (List ℝ))
  | builtin (b : Builtin)

/-- The Workspace: its private `variables` map, as an insertion-ordered
association list with unique keys (the `Map` semantics `set` preserves). -/
structure Ws where
  vars : List (Str × WsValue)

/-- `this.variables.get(name)`. -/
def lookupVar (ws : Ws) (name : Str) : Option WsValue :=
  (ws.vars.find? (fun p => p.1 = name)).map (fun p => p.2)

/-- `this.variables.set(name, v)`: overwrite the entry in place if the key
exists, else append. -/
def setVar (ws : Ws) (name : Str) (v : WsValue) : Ws :=
  if ws.vars.any (fun p => p.1 = name) then
    ⟨ws.vars.map (fun p => if p.1 = name then (name, v) else p)⟩
  else ⟨ws.vars ++ [(name, v)]⟩

/-- The constructor: `registerBuiltins` runs once, seeding the empty map
with the four generator closures. -/
def initWs : Ws :=
  ⟨[("sine".toList, .builtin .sine), ("square".toList, .builtin .square),
    ("chirp".toList, .builtin .chirp), ("matrix".toList, .builtin .matrix)]⟩

/-- `getValue(name)`. -/
def getValue (ws : Ws) (name : Str) : Option WsValue := lookupVar ws name

/-- `array.join(sep)`. -/
def joinSep (sep : Str) : List Str → Str
  | [] => []
  | [x] => x
  | x :: xs => x ++ sep ++ joinSep sep xs

/-- `String(v)` for a sample: the special values render exactly; the
decimal rendering of a finite double is not modelled and gets a fixed
token (no claim observes a rendered sample). -/
def showJsNum : JsNum → Str
  | .fin _ => "<float>".toList
  | .inf => "Infinity".toList
  | .ninf => "-Infinity".toList
  | .nan => "NaN".toList

/-- `String(x)` for a matrix entry (a finite double; not modelled). -/
def showReal (_ : ℝ) : Str := "<float>".toList

/-- `formatOutput`: Signals as `Signal[N samples] = [five samples...]`,
Matrices via variant-1 `toString` (`Matrix[RxC]` then tab-joined rows),
functions as `[Function]`, numbers via `String`. -/
def formatOutput : WsValue → Str
  | .sig s =>
    "Signal[".toList ++ showNat s.data.length ++ " samples] = [".toList
      ++ joinSep ", ".toList ((s.data.take 5).map showJsNum) ++ "...]".toList
  | .mat m =>
    "Matrix[".toList ++ showNat m.length ++ "x".toList
      ++ showNat (m.headD []).length ++ ['\n']
      ++ joinSep ['\n'] (m.map (fun row => joinSep ['\t'] (row.map showReal)))
  | .builtin _ => "[Function]".toList
  | .num q => showQ q

/-- Index of the first occurrence of a character, if present
(`expr.indexOf(c)` at call sites that already checked `includes`). -/
def idxOfChar (c : Char) : Str → Option ℕ
  | [] => none
  | d :: rest =>
    if d = c then some 0 else (idxOfChar c rest).map (· + 1)

/-- `findMatchingParenthesis`: scan with a counter; after decrementing on a
`)`, return its index when an opening parenthesis was seen and the counter
is back to zero. -/
def findParenAux : Str → ℤ → Bool → ℕ → Option ℕ
  | [], _, _, _ => none
  | c :: rest, count, startFound, i =>
    if c = '(' then findParenAux rest (count + 1) true (i + 1)
    else if c = ')' then
      if startFound ∧ count - 1 = 0 then some i
      else findParenAux rest (count - 1) startFound (i + 1)
    else findParenAux rest count startFound (i + 1)

/-- `findMatchingParenthesis` throws `"Unmatched parentheses"` when the
scan falls off the end. -/
def findMatchingParen (expr : Str) : Except JsErr ℕ :=
  match findParenAux expr 0 false 0 with
  | some i => .ok i
  | none => .error (.simErr .validation "Unmatched parentheses".toList none)

/-- Strip every whitespace character (`argsStr.replace(/\s+/g, "")`). -/
def stripAllWhitespace (s : Str) : Str := s.filter (fun c => !isSpaceChar c)

/-- `\w` word characters (for the chirp option keys). -/
def isWordChar (c : Char) : Bool := c.isAlphanum || c = '_'

/-- A signed decimal token at the head of the input; returns the value and
the rest. -/
def parseNumTok (s : Str) : Option (ℚ × Str) :=
  let tok := s.takeWhile (fun c => (digitVal c).isSome ∨ c = '-' ∨ c = '.')
  if tok = [] then none
  else
    match tok with
    | '-' :: rest => (parseDec rest).map (fun q => (-q, s.drop tok.length))
    | t => (parseDec t).map (fun q => (q, s.drop tok.length))

/-- `JSON.parse` of a whitespace-free row tail `n,n,…]` (consuming the
closing bracket). -/
def parseNums : ℕ → Str → Option (List ℚ × Str)
  | 0, _ => none
  | _, ']' :: rest => some ([], rest)
  | fuel + 1, s =>
    match parseNumTok s with
    | none => none
    | some (q, s1) =>
      match s1 with
      | ',' :: s2 => (parseNums fuel s2).map (fun p => (q :: p.1, p.2))
      | ']' :: s2 => some ([q], s2)
      | _ => none

/-- `JSON.parse` of a whitespace-free rows tail `[…],[…]]` (consuming the
closing bracket). -/
def parseRows : ℕ → Str → Option (List (List ℚ) × Str)
  | 0, _ => none
  | _, ']' :: rest => some ([], rest)
  | fuel + 1, '[' :: s =>
    match parseNums fuel s with
    | none => none
    | some (row, s1) =>
      match s1 with
      | ',' :: s2 => (parseRows fuel s2).map (fun p => (row :: p.1, p.2))
      | ']' :: s2 => some ([row], s2)
      | _ => none
  | _, _ => none

/-- `JSON.parse(argsStr.replace(/\s+/g, ""))` for the `matrix` builtin's
grid literal. A parse that does not yield a (possibly ragged) 2-D numeric
array is a failure; JSON values of other shapes, which `JSON.parse` would
accept only for the `Matrix` constructor to reject, are also failures
here. -/
def parseGrid (s : Str) : Option (List (List ℚ)) :=
  match s with
  | '[' :: rest =>
    match parseRows rest.length rest with
    | some (g, []) => some g
    | _ => none
  | _ => none

/-- A chirp option value after the key-quoting munge: a number, or a
quoted word (for `method`). -/
inductive ChirpVal where
  | num (q : ℚ)
  | word (w : Str)

/-- One chirp option value. -/
def parseChirpVal (s : Str) : Option (ChirpVal × Str) :=
  match s with
  | '\'' :: rest =>
    let w := rest.takeWhile (fun c => c ≠ '\'')
    (match rest.drop w.length with
      | '\'' :: s2 => some (.word w, s2)
      | _ => none)
  | '"' :: rest =>
    let w := rest.takeWhile (fun c => c ≠ '"')
    (match rest.drop w.length with
      | '"' :: s2 => some (.word w, s2)
      | _ => none)
  | _ => (parseNumTok s).map (fun p => (.num p.1, p.2))

/-- The key/value pairs of the chirp option object, `key:value,…}`
(consuming the closing brace, written `\x7d` in the grammar). -/
def parseKVs : ℕ → Str → Option (List (Str × ChirpVal) × Str)
  | 0, _ => none
  | fuel + 1, s =>
    match s with
    | '}' :: rest => some ([], rest)
    | _ =>
      let key := s.takeWhile isWordChar
      if key = [] then none
      else
        match s.drop key.length with
        | ':' :: s1 =>
          (match parseChirpVal s1 with
            | none => none
            | some (v, s2) =>
              match s2 with
              | ',' :: s3 => (parseKVs fuel s3).map (fun p =>
                  ((key, v) :: p.1, p.2))
              | '}' :: s3 => some ([(key, v)], s3)
              | _ => none)
        | _ => none

/-- The chirp argument pipeline: quote the keys, `JSON.parse`, and read the
option bag. The source's destructuring would give `undefined` for missing
numeric fields (feeding NaN arithmetic downstream); that unexercised shape
is modelled as a parse failure. A `method` string other than `"linear"`
takes the `else` (exponential) branch of `generateChirp` and is parsed to
`exponential`. -/
def parseChirpOpts (s : Str) : Option ChirpOptions :=
  match stripAllWhitespace s with
  | '{' :: rest =>
    match parseKVs rest.length rest with
    | some (kvs, []) =>
      let getNum := fun (k : Str) => kvs.findSome? (fun p =>
        if p.1 = k then
          (match p.2 with | .num q => some q | _ => none)
        else none)
      match getNum "startFreq".toList, getNum "endFreq".toList,
          getNum "duration".toList with
      | some sf, some ef, some du =>
        some
          { startFreq := sf, endFreq := ef, duration := du
            method := kvs.findSome? (fun p =>
              if p.1 = "method".toList then
                (match p.2 with
                  | .word w =>
                    some (if w = "linear".toList then ChirpMethod.linear
                      else ChirpMethod.exponential)
                  | _ => none)
              else none)
            sampleRate := getNum "sampleRate".toList }
      | _, _, _ => none
    | _ => none
  | _ => none

/-- The evaluated argument list a builtin is invoked with: plain values
for the default splitting policy, a raw grid for `matrix`, the option bag
for `chirp`. -/
inductive BuiltinArgs where
  | vals (l : List WsValue)
  | grid (g : List (List ℚ))
  | copts (o : ChirpOptions)

/-- Invoke a builtin closure on its evaluated arguments, unwrapping the
`SimulationResult` payload (`result.data`) as the closures do. Calls whose
shapes the notebook grammar cannot produce from well-typed arguments
(wrong arity, non-numeric argument values) would flow JS
`undefined`/object arithmetic into the generators and are not modelled. -/
noncomputable def applyBuiltin : Builtin → BuiltinArgs → Except JsErr WsValue
  | .sine, .vals [.num f, .num d] => (generateSine f d 44100).map .sig
  | .sine, .vals [.num f, .num d, .num r] => (generateSine f d r).map .sig
  | .square, .vals [.num f, .num d] => (generateSquare f d 44100).map .sig
  | .square, .vals [.num f, .num d, .num r] => (generateSquare f d r).map .sig
  | .chirp, .copts o => (generateChirp o).map .sig
  | .matrix, .grid g =>
    (validateMat (g.map (fun row => row.map (fun q => (q : ℝ))))).map
      (fun _ => .mat (g.map (fun row => row.map (fun q => (q : ℝ)))))
  | _, _ => .error (.jsError "unmodelled builtin call".toList)

/-- `parseArguments`, parametrized by the recursive expression evaluator:
empty argument string means no arguments; `matrix` takes its raw argument
as a grid literal; `chirp` with a brace-led argument takes the option
object; everything else splits on every comma, tries each piece as a
numeric literal, and falls back to expression evaluation. -/
noncomputable def parseArgsWith (evalFn : Str → Except JsErr WsValue)
    (argsStr funcName : Str) : Except JsErr BuiltinArgs :=
  if argsStr = [] then .ok (.vals [])
  else if funcName = "matrix".toList then
    match parseGrid (stripAllWhitespace argsStr) with
    | some g => .ok (.grid g)
    | none => .error (.simErr .validation "Invalid matrix format".toList none)
  else if funcName = "chirp".toList ∧ argsStr.headD ' ' = '{' then
    match parseChirpOpts argsStr with
    | some o => .ok (.copts o)
    | none =>
      .error (.simErr .validation "Invalid options object format".toList none)
  else
    (((jsSplit ',' argsStr).mapM (fun arg =>
      let trimmed := jsTrim arg
      match jsNumber trimmed with
      | some q => .ok (WsValue.num q)
      | none => evalFn trimmed)
      : Except JsErr (List WsValue))).map .vals

/-- `evaluateFunctionCall`, parametrized by the recursive evaluator: take
the text before the first `(` as the function name, extract the argument
string up to the matching parenthesis (which can throw before the function
is even looked up), require the name to resolve to a function, parse the
arguments, invoke. -/
noncomputable def evalFnCallWith (evalFn : Str → Except JsErr WsValue)
    (ws : Ws) (expr : Str) : Except JsErr WsValue :=
  let i := (idxOfChar '(' expr).getD 0
  let funcName := jsTrim (expr.take i)
  match findMatchingParen expr with
  | .error e => .error e
  | .ok j =>
    let argsStr := jsTrim ((expr.take j).drop (i + 1))
    match lookupVar ws funcName with
    | some (.builtin b) =>
      match parseArgsWith evalFn argsStr funcName with
      | .error e => .error e
      | .ok args => applyBuiltin b args
    | _ =>
      .error (.simErr .validation
        ("Function '".toList ++ funcName ++ "' is not defined".toList) none)

/-- `evaluateExpression`: empty input throws, a `(` anywhere dispatches to
the function-call path, then numeric literals, then variable references.
The fuel models the JS call stack; exhaustion is the engine's
`RangeError: Maximum call stack size exceeded`, which no claim's inputs
reach (their nesting depth is below the fuel every theorem supplies). -/
noncomputable def evalExpr : ℕ → Ws → Str → Except JsErr WsValue
  | 0, _, _ => .error (.jsError "Maximum call stack size exceeded".toList)
  | fuel + 1, ws, expr =>
    if expr = [] then
      .error (.simErr .validation "Empty expression".toList none)
    else if jsIncludes '(' expr then evalFnCallWith (evalExpr fuel ws) ws expr
    else
      match jsNumber expr with
      | some q => .ok (.num q)
      | none =>
        match lookupVar ws expr with
        | some v => .ok v
        | none =>
          .error (.simErr .validation
            ("Cannot evaluate expression: '".toList ++ expr ++ "'".toList)
            none)

/-- `executeLine`'s catch: rewrap any evaluation failure as a runtime
error naming the offending line's text and carrying the cause. -/
def wrapLineErr (line : Str) (e : JsErr) : JsErr :=
  .simErr .runtime
    ("Line \"".toList ++ line ++ "\": ".toList ++ errMessage e) (some e)

/-- The body of `executeLine`: an `=` anywhere makes it an assignment —
split on every `=`, trim, destructure the first two pieces, require both
non-empty, evaluate the expression piece, bind, and echo
`name = formatted`; otherwise evaluate the whole line and echo the
formatted value. -/
noncomputable def executeLineCore (fuel : ℕ) (ws : Ws) (line : Str) :
    Except JsErr (Ws × Str) :=
  if jsIncludes '=' line then
    match (jsSplit '=' line).map jsTrim with
    | varName :: expression :: _ =>
      if varName = [] ∨ expression = [] then
        .error (.simErr .validation "Invalid assignment".toList none)
      else
        match evalExpr fuel ws expression with
        | .error e => .error e
        | .ok v =>
          .ok (setVar ws varName v,
            varName ++ " = ".toList ++ formatOutput v)
    | _ => .error (.simErr .validation "Invalid assignment".toList none)
  else (evalExpr fuel ws line).map (fun v => (ws, formatOutput v))

/-- `executeLine`: the empty line yields empty output; anything thrown by
the body is rewrapped with the line text as a runtime error. -/
noncomputable def executeLine (fuel : ℕ) (ws : Ws) (line : Str) :
    Except JsErr (Ws × Str) :=
  if line = [] then .ok (ws, [])
  else (executeLineCore fuel ws line).mapError (wrapLineErr line)

/-- `removeInlineComments`: cut at the first `//`, then trim. -/
def removeInlineComments (line : Str) : Str :=
  match idxOfSlashSlash line with
  | some i => jsTrim (line.take i)
  | none => jsTrim line

/-- `execute`'s preprocessing: split on newlines, trim, drop empty lines
and whole-line comments. -/
def linesOf (code : Str) : List Str :=
  ((jsSplit '\n' code).map jsTrim).filter
    (fun l => !l.isEmpty && !startsWithSlashSlash l)

/-- The per-line loop of `execute`: run each line in order against the
environment as mutated so far; the first failure aborts the loop, leaving
the environment as the already-executed lines made it (`Map` mutations are
in place and are not rolled back); non-empty outputs are collected. -/
noncomputable def goLines (fuel : ℕ) (ws : Ws) :
    List Str → Ws × Except JsErr (List Str)
  | [] => (ws, .ok [])
  | l :: ls =>
    match executeLine fuel ws (removeInlineComments l) with
    | .error e => (ws, .error e)
    | .ok (ws2, out) =>
      match goLines fuel ws2 ls with
      | (w3, .ok outs) => (w3, .ok (if out = [] then outs else out :: outs))
      | (w3, .error e) => (w3, .error e)

/-- `result += lineResult + "\n"` accumulation followed by the final
`result.trim()`. -/
def renderOut (outs : List Str) : Str :=
  jsTrim (outs.foldl (fun acc o => acc ++ o ++ ['\n']) [])

/-- `execute`'s catch: rewrap as `Execution error: …`, runtime-classified,
keeping the cause. -/
def wrapExecErr (e : JsErr) : JsErr :=
  .simErr .runtime ("Execution error: ".toList ++ errMessage e) (some e)

/-- `Workspace.execute`: preprocess into lines, run them, and either
return the newline-joined trimmed output or fail with the wrapped error.
The mutated environment is returned alongside (JS mutates `this`). -/
noncomputable def executeWS (fuel : ℕ) (ws : Ws) (code : Str) :
    Ws × Except JsErr Str :=
  match goLines fuel ws (linesOf code) with
  | (w, .ok outs) => (w, .ok (renderOut outs))
  | (w, .error e) => (w, .error (wrapExecErr e))

end V1

namespace V2

/-! ## Variant 2 `Matrix.ts`: the plain-`Error` Matrix with `add`,
scalar/matrix `multiply`, `transpose` and an indexed getter/setter. -/

/-- Variant-2 `validateData`: same shape check, but thrown as plain
`Error`s. -/
def validateMat (data : List (List ℝ)) : Except JsErr Unit :=
  if data.length = 0 then .error (.jsError "Invalid matrix data".toList)
  else if ∀ row ∈ data, row.length = (data.headD []).length then .ok ()
  else .error (.jsError "All rows must have the same length".toList)

/-- `new Matrix(data)` (the constructor copies each row; copying is the
identity on immutable lists). -/
def mkMat (data : List (List ℝ)) : Except JsErr (List (List ℝ)) :=
  (validateMat data).map (fun _ => data)

/-- The grid built by variant-2 `transpose`: a `getCols() × getRows()`
array prefilled with `0`, overwritten by `result[j][i] = data[i][j]`. -/
def transposeGrid (g : List (List ℝ)) : List (List ℝ) :=
  (List.range (g.headD []).length).map (fun j =>
    (List.range g.length).map (fun i => (g.getD i []).getD j 0))

/-- Variant-2 `Matrix.transpose`, including the constructor run on the
result (which rejects a `0 × n` transpose of an `n × 0` matrix). -/
def transposeM (g : List (List ℝ)) : Except JsErr (List (List ℝ)) :=
  mkMat (transposeGrid g)

/-- Variant-2 `Matrix.multiply` on a matrix argument: dimension check
(`getCols() !== other.getRows()` throws a plain `Error`), then the
standard triple loop `result[i][j] = Σ_{k < getCols()} a[i][k] * b[k][j]`
and the constructor on the result. -/
def matMul (a b : List (List ℝ)) : Except JsErr (List (List ℝ)) :=
  if (a.headD []).length ≠ b.length then
    .error (.jsError "Invalid matrix dimensions for multiplication".toList)
  else
    mkMat ((List.range a.length).map (fun i =>
      (List.range (b.headD []).length).map (fun j =>
        (List.range (a.headD []).length).foldl
          (fun sum k => sum + (a.getD i []).getD k 0 * (b.getD k []).getD j 0)
          0)))

/-! ## Variant 2 `Signal.ts`: the plain Signal carrying the radix-2 FFT. -/

/-- The `Complex` record of variant-2 `Signal.ts` (`re`, `im`). -/
abbrev Cx := ℝ × ℝ

def cmul (a b : Cx) : Cx := (a.1 * b.1 - a.2 * b.2, a.1 * b.2 + a.2 * b.1)

def cadd (a b : Cx) : Cx := (a.1 + b.1, a.2 + b.2)

def csub (a b : Cx) : Cx := (a.1 - b.1, a.2 - b.2)

/-- `data.filter((_, i) => i % 2 === 0)`. -/
def evens : List α → List α
  | [] => []
  | [a] => [a]
  | a :: _ :: rest => a :: evens rest

/-- `data.filter((_, i) => i % 2 === 1)`. -/
def odds : List α → List α
  | [] => []
  | _ :: rest => evens rest

/-- The twiddle factor `{re: cos(-2πk/N), im: sin(-2πk/N)}`. -/
noncomputable def twiddle (n k : ℕ) : Cx :=
  (Real.cos (-2 * Real.pi * k / n), Real.sin (-2 * Real.pi * k / n))

/-- The butterfly loop of `fft`: for each `k < N/2` read `odd[k]` and
`even[k]` (reading past the end of a JS array yields `undefined`, and the
`.re`/`.im` accesses inside `complexMultiply`/`complexAdd` then throw a
`TypeError`), and write `result[k]` and `result[k + N/2]`. The second
index is integral exactly when `N` is even (the loop indices satisfy
`k + N/2 < N` then); for odd `N` the JS assignment `result[2.5] = v`
creates a plain string-keyed property and leaves the array's elements
untouched, modelled as a no-op on the element list. -/
noncomputable def combineLoop (n : ℕ) (ev od : List Cx) :
    List ℕ → List (Option Cx) → Except JsErr (List (Option Cx))
  | [], acc => .ok acc
  | k :: ks, acc =>
    match od[k]? with
    | none => .error .typeError
    | some oK =>
      let oddK := cmul (twiddle n k) oK
      match ev[k]? with
      | none => .error .typeError
      | some eK =>
        let acc1 := acc.set k (some (cadd eK oddK))
        combineLoop n ev od ks
          (if n % 2 = 0 then acc1.set (k + n / 2) (some (csub eK oddK))
            else acc1)

/-- `Signal.fft`, structured on a fuel bound for the recursion depth
(`fft l` below always supplies `l.length`, which dominates the depth since
both halves are strictly shorter whenever `N ≥ 2`): base case `N ≤ 1` maps
each sample to a zero-imaginary complex value, otherwise recurse on the
even- and odd-index halves and run the butterfly loop for `k < N/2` into a
`new Array(N)` of holes. A hole surviving to the end (impossible: the loop
either fills all of them or throws first) would read as `{re: 0, im: 0}`.
The fuel-exhausted branch is unreachable for the fuel `fft` supplies. -/
noncomputable def fftF : ℕ → List ℝ → Except JsErr (List Cx)
  | 0, data =>
    if data.length ≤ 1 then .ok (data.map (fun x => (x, 0)))
    else .error .typeError
  | fuel + 1, data =>
    if data.length ≤ 1 then .ok (data.map (fun x => (x, 0)))
    else
      match fftF fuel (evens data) with
      | .error e => .error e
      | .ok ev =>
        match fftF fuel (odds data) with
        | .error e => .error e
        | .ok od =>
          match
            combineLoop data.length ev od
              (List.range ((data.length + 1) / 2))
              (List.replicate data.length none) with
          | .error e => .error e
          | .ok res => .ok (res.map (fun o => o.getD (0, 0)))

/-- `Signal.fft` of variant 2. -/
noncomputable def fft (data : List ℝ) : Except JsErr (List Cx) :=
  fftF data.length data

/-- A variant-2 `Signal`: plain number array plus sample rate. -/
structure Signal where
  data : List ℝ
  sampleRate : ℚ

/-- `fft()` on a variant-2 Signal (only the samples participate). -/
noncomputable def Signal.fftM (s : Signal) : Except JsErr (List Cx) :=
  fft s.data

end V2

/-- `n` is a power of two (the length shape `fft` needs for success). -/
def IsPow2 (n : ℕ) : Prop := ∃ k, n = 2 ^ k

/-! # Theorems

General lemmas about the string model first, then the claims. -/

theorem jsIncludes_iff {c : Char} {s : Str} : jsIncludes c s = true ↔ c ∈ s := by
  unfold jsIncludes
  rw [List.any_eq_true]
  constructor
  · rintro ⟨d, hd, hdc⟩
    simp only [decide_eq_true_eq] at hdc
    exact hdc ▸ hd
  · intro h
    exact ⟨c, h, by simp⟩

theorem jsSplit_not_mem {c : Char} {l : Str} (h : c ∉ l) : jsSplit c l = [l] := by
  induction l with
  | nil => rfl
  | cons d rest ih =>
    simp only [List.mem_cons, not_or] at h
    have hne : ¬ d = c := fun hdc => h.1 hdc.symm
    simp only [jsSplit, if_neg hne, ih h.2]

theorem mem_of_jsSplit_two {c : Char} {l p0 p1 : Str} {rest : List Str}
    (h : jsSplit c l = p0 :: p1 :: rest) : c ∈ l := by
  by_contra hc
  rw [jsSplit_not_mem hc] at h
  simp at h

theorem jsSplit_append {c : Char} {a : Str} (b : Str) (h : c ∉ a) :
    jsSplit c (a ++ c :: b) = a :: jsSplit c b := by
  induction a with
  | nil => simp [jsSplit]
  | cons d rest ih =>
    simp only [List.mem_cons, not_or] at h
    have hne : ¬ d = c := fun hdc => h.1 hdc.symm
    simp only [List.cons_append, jsSplit, if_neg hne, List.append_eq, ih h.2]

theorem jsTrim_of_ends {l : Str}
    (hh : ∃ x rest, l = x :: rest ∧ isSpaceChar x = false)
    (hl : ∃ mid y, l = mid ++ [y] ∧ isSpaceChar y = false) : jsTrim l = l := by
  have h1 : l.dropWhile isSpaceChar = l := by
    obtain ⟨x, rest, hE, hx⟩ := hh
    rw [hE]
    simp [List.dropWhile_cons, hx]
  have h2 : l.reverse.dropWhile isSpaceChar = l.reverse := by
    obtain ⟨mid, y, hE, hy⟩ := hl
    rw [hE]
    simp [List.reverse_append, List.dropWhile_cons, hy]
  unfold jsTrim
  rw [h1, h2, List.reverse_reverse]

theorem jsTrim_cons_space {c : Char} (h : isSpaceChar c = true) (l : Str) :
    jsTrim (c :: l) = jsTrim l := by
  simp [jsTrim, List.dropWhile_cons, h]

/-- A general helper: the environment only returns pairs that are in the
variables list. -/
theorem lookupVar_mem {ws : V1.Ws} {n : Str} {v : V1.WsValue}
    (h : V1.lookupVar ws n = some v) : (n, v) ∈ ws.vars := by
  unfold V1.lookupVar at h
  cases hf : ws.vars.find? (fun p => decide (p.1 = n)) with
  | none => rw [hf] at h; simp at h
  | some p =>
    rw [hf] at h
    simp only [Option.map_some', Option.some.injEq] at h
    have hm := List.mem_of_find?_eq_some hf
    have hp := List.find?_some hf
    simp only [decide_eq_true_eq] at hp
    cases p with
    | mk a b => cases hp; cases h; exact hm

/-- C10 (amended): a line with more than one `=` splits on every `=`;
only the first two trimmed pieces are used — the first names the variable
and the second is the expression evaluated — and everything after the
second `=` is ignored, provided the second piece evaluates successfully
(an evaluation failure of the second piece still fails the line). -/
theorem executeLine_multi_assign (fuel : ℕ) (ws : V1.Ws) (line p0 p1 : Str)
    (rest : List Str) (v : V1.WsValue)
    (hsplit : jsSplit '=' line = p0 :: p1 :: rest)
    (hv : jsTrim p0 ≠ []) (he : jsTrim p1 ≠ [])
    (heval : V1.evalExpr fuel ws (jsTrim p1) = .ok v) :
    V1.executeLine fuel ws line
      = .ok (V1.setVar ws (jsTrim p0) v,
          jsTrim p0 ++ " = ".toList ++ V1.formatOutput v) := by
  have hmem : '=' ∈ line := mem_of_jsSplit_two hsplit
  have hne : line ≠ [] := by rintro rfl; simp at hmem
  unfold V1.executeLine V1.executeLineCore
  rw [if_neg hne, if_pos (jsIncludes_iff.mpr hmem), hsplit]
  simp only [List.map_cons]
  rw [if_neg (by simp [hv, he]), heval]
  rfl

/-- Witness for C10's amended theorem: with `b` previously bound to `7`,
the line `a = b = 1` binds `a` to `7` and echoes `a = 7`; the trailing
`= 1` is ignored. -/
theorem executeLine_multi_assign_witness :
    V1.executeLine 1 (V1.setVar V1.initWs "b".toList (.num 7))
        "a = b = 1".toList
      = .ok (V1.setVar (V1.setVar V1.initWs "b".toList (.num 7)) "a".toList
          (.num 7), "a = 7".toList) :=
  executeLine_multi_assign 1 (V1.setVar V1.initWs "b".toList (.num 7))
    "a = b = 1".toList "a ".toList " b ".toList [" 1".toList] (.num 7)
    (by decide) (by decide) (by decide) rfl

/-- C10, counterexample to "no error raised": on a fresh Workspace the
line `a = b = 1` evaluates its second segment `b`, which is undefined, so
the line fails and `a` is not bound. -/
theorem executeLine_multi_assign_counterexample :
    V1.executeLine 5 V1.initWs "a = b = 1".toList
      = .error (V1.wrapLineErr "a = b = 1".toList
          (.simErr .validation "Cannot evaluate expression: 'b'".toList none))
    ∧ V1.lookupVar V1.initWs "a".toList = none :=
  ⟨rfl, rfl⟩

/-- C7 (amended): the four builtins are registered exactly once at
construction; an assignment to a built-in name overwrites that entry of
the single environment map, so subsequent lookups return the user value
and no binding of the Workspace still holds the built-in. -/
theorem builtins_registered_once_overwritten :
    V1.initWs.vars.map Prod.fst
        = ["sine".toList, "square".toList, "chirp".toList, "matrix".toList]
    ∧ V1.lookupVar V1.initWs "sine".toList = some (.builtin .sine)
    ∧ V1.lookupVar V1.initWs "square".toList = some (.builtin .square)
    ∧ V1.lookupVar V1.initWs "chirp".toList = some (.builtin .chirp)
    ∧ V1.lookupVar V1.initWs "matrix".toList = some (.builtin .matrix)
    ∧ (∀ v : V1.WsValue,
        V1.lookupVar (V1.setVar V1.initWs "sine".toList v) "sine".toList
          = some v)
    ∧ V1.lookupVar (V1.executeWS 5 V1.initWs "sine = 5".toList).1
        "sine".toList = some (.num 5)
    ∧ ∀ n : Str,
        V1.lookupVar (V1.executeWS 5 V1.initWs "sine = 5".toList).1 n
          ≠ some (.builtin .sine) := by
  refine ⟨rfl, rfl, rfl, rfl, rfl, fun v => rfl, rfl, fun n h => ?_⟩
  have hstate : (V1.executeWS 5 V1.initWs "sine = 5".toList).1
      = ⟨[("sine".toList, .num 5), ("square".toList, .builtin .square),
          ("chirp".toList, .builtin .chirp),
          ("matrix".toList, .builtin .matrix)]⟩ := rfl
  rw [hstate] at h
  have hm := lookupVar_mem h
  simp only [List.mem_cons, List.not_mem_nil, or_false, Prod.mk.injEq] at hm
  rcases hm with ⟨_, h2⟩ | ⟨_, h2⟩ | ⟨_, h2⟩ | ⟨_, h2⟩ <;> cases h2

/-- C7, counterexample to "the built-in itself is preserved": after
executing `sine = 5` the environment's `sine` entry holds the number `5`
and the full variables list — every binding there is — no longer contains
the `sine` builtin anywhere. -/
theorem builtin_overwritten_counterexample :
    (V1.executeWS 5 V1.initWs "sine = 5".toList).1
      = ⟨[("sine".toList, .num 5), ("square".toList, .builtin .square),
          ("chirp".toList, .builtin .chirp),
          ("matrix".toList, .builtin .matrix)]⟩
    ∧ (V1.executeWS 5 V1.initWs "sine = 5".toList).2
      = .ok "sine = 5".toList :=
  ⟨rfl, rfl⟩

/-- The per-line loop, on failure: the returned environment is exactly the
one the successfully executed prefix produced (no rollback), and the error
is the failing line's. -/
theorem goLines_error (fuel : ℕ) (ws ws' : V1.Ws) (ls : List Str) (e : JsErr)
    (h : V1.goLines fuel ws ls = (ws', .error e)) :
    ∃ pre fail post outs,
      ls = pre ++ fail :: post ∧
      V1.goLines fuel ws pre = (ws', .ok outs) ∧
      V1.executeLine fuel ws' (V1.removeInlineComments fail) = .error e := by
  induction ls generalizing ws with
  | nil =>
    exact absurd (congrArg Prod.snd h) (by simp [V1.goLines])
  | cons l ls ih =>
    unfold V1.goLines at h
    split at h
    next e2 hE =>
      simp only [Prod.mk.injEq, Except.error.injEq] at h
      obtain ⟨rfl, rfl⟩ := h
      exact ⟨[], l, ls, [], rfl, rfl, hE⟩
    next ws2 out hE =>
      split at h
      next w3 outs hG =>
        exact absurd (congrArg Prod.snd h) (by simp)
      next w3 e3 hG =>
        simp only [Prod.mk.injEq, Except.error.injEq] at h
        obtain ⟨rfl, rfl⟩ := h
        obtain ⟨pre, fail, post, outs, hEq, hPre, hFail⟩ := ih ws2 hG
        refine ⟨l :: pre, fail, post,
          if out = [] then outs else out :: outs,
          by rw [hEq, List.cons_append], ?_, hFail⟩
        unfold V1.goLines
        simp only [hE, hPre]

/-- Every `executeLine` failure is the runtime rewrap of an inner cause
with the line's own source text (the empty line cannot fail). -/
theorem executeLine_error_shape (fuel : ℕ) (ws : V1.Ws) (l : Str) (e : JsErr)
    (h : V1.executeLine fuel ws l = .error e) :
    ∃ inner, e = V1.wrapLineErr l inner ∧ l ≠ [] := by
  unfold V1.executeLine at h
  by_cases hl : l = []
  · rw [if_pos hl] at h
    cases h
  · rw [if_neg hl] at h
    cases hc : V1.executeLineCore fuel ws l with
    | error e0 =>
      rw [hc] at h
      cases h
      exact ⟨e0, rfl, hl⟩
    | ok p =>
      rw [hc] at h
      cases h

/-- C1: whenever a (multi-line) `execute` call fails, it fails as a whole
with a runtime-classified error — `Execution error: Line "…": cause`,
naming the failing line's source text and wrapping the cause — while the
environment returned is exactly the one produced by the successfully
executed prefix of lines, so every assignment a prior successful line made
is still in place and visible to `getValue` (nothing is rolled back; only
the formatted output is discarded). -/
theorem execute_line_atomic (fuel : ℕ) (ws ws' : V1.Ws) (code : Str)
    (e : JsErr) (h : V1.executeWS fuel ws code = (ws', .error e)) :
    ∃ pre fail post outs inner,
      V1.linesOf code = pre ++ fail :: post ∧
      V1.goLines fuel ws pre = (ws', .ok outs) ∧
      V1.executeLine fuel ws' (V1.removeInlineComments fail)
        = .error (V1.wrapLineErr (V1.removeInlineComments fail) inner) ∧
      e = V1.wrapExecErr
        (V1.wrapLineErr (V1.removeInlineComments fail) inner) := by
  unfold V1.executeWS at h
  split at h
  next w outs hG =>
    exact absurd (congrArg Prod.snd h) (by simp)
  next w e0 hG =>
    simp only [Prod.mk.injEq, Except.error.injEq] at h
    obtain ⟨rfl, rfl⟩ := h
    obtain ⟨pre, fail, post, outs, hEq, hPre, hFail⟩ :=
      goLines_error fuel ws w (V1.linesOf code) e0 hG
    obtain ⟨inner, rfl, _⟩ :=
      executeLine_error_shape fuel w (V1.removeInlineComments fail) e0 hFail
    exact ⟨pre, fail, post, outs, inner, hEq, hPre, hFail, rfl⟩

/-- Witness for C1 at the spec's own example `"a = 1\nbadExpr(\n"`: the
call fails with the runtime-wrapped unmatched-parenthesis error naming
`badExpr(`, yet `a` is bound and `getValue("a")` still returns `1`. -/
theorem execute_line_atomic_witness :
    V1.executeWS 5 V1.initWs "a = 1\nbadExpr(\n".toList
      = (⟨[("sine".toList, .builtin .sine), ("square".toList, .builtin .square),
           ("chirp".toList, .builtin .chirp),
           ("matrix".toList, .builtin .matrix), ("a".toList, .num 1)]⟩,
         .error (V1.wrapExecErr (V1.wrapLineErr "badExpr(".toList
           (.simErr .validation "Unmatched parentheses".toList none))))
    ∧ V1.getValue (V1.executeWS 5 V1.initWs "a = 1\nbadExpr(\n".toList).1
        "a".toList = some (.num 1)
    ∧ (∃ pre fail post outs inner,
        V1.linesOf "a = 1\nbadExpr(\n".toList = pre ++ fail :: post ∧
        V1.goLines 5 V1.initWs pre
          = (⟨[("sine".toList, .builtin .sine),
               ("square".toList, .builtin .square),
               ("chirp".toList, .builtin .chirp),
               ("matrix".toList, .builtin .matrix),
               ("a".toList, .num 1)]⟩, .ok outs) ∧
        V1.executeLine 5 ⟨[("sine".toList, .builtin .sine),
               ("square".toList, .builtin .square),
               ("chirp".toList, .builtin .chirp),
               ("matrix".toList, .builtin .matrix),
               ("a".toList, .num 1)]⟩ (V1.removeInlineComments fail)
          = .error (V1.wrapLineErr (V1.removeInlineComments fail) inner) ∧
        V1.wrapExecErr (V1.wrapLineErr "badExpr(".toList
            (.simErr .validation "Unmatched parentheses".toList none))
          = V1.wrapExecErr (V1.wrapLineErr (V1.removeInlineComments fail)
              inner)) :=
  ⟨rfl, rfl,
    execute_line_atomic 5 V1.initWs
      ⟨[("sine".toList, .builtin .sine), ("square".toList, .builtin .square),
        ("chirp".toList, .builtin .chirp), ("matrix".toList, .builtin .matrix),
        ("a".toList, .num 1)]⟩
      "a = 1\nbadExpr(\n".toList
      (V1.wrapExecErr (V1.wrapLineErr "badExpr(".toList
        (.simErr .validation "Unmatched parentheses".toList none))) rfl⟩

/-- Left-to-right `+=` accumulation over `for (k = 0; k < n; k++)` is the
finite sum. -/
theorem foldl_add_range (n : ℕ) (f : ℕ → ℝ) (c : ℝ) :
    (List.range n).foldl (fun s k => s + f k) c
      = c + ∑ k ∈ Finset.range n, f k := by
  induction n with
  | zero => simp
  | succ m ih =>
    rw [List.range_succ, List.foldl_append, ih, Finset.sum_range_succ]
    simp [add_assoc]

theorem getD_map_range {α : Type} {n i : ℕ} (hi : i < n) (f : ℕ → α)
    (d : α) : ((List.range n).map f).getD i d = f i := by
  have h2 : i < ((List.range n).map f).length := by simpa using hi
  rw [List.getD_eq_getElem _ _ h2, List.getElem_map, List.getElem_range]

theorem headD_eq_getD {α : Type} (l : List α) (d : α) :
    l.headD d = l.getD 0 d := by cases l <;> rfl

theorem validateMatV1_ok {d : List (List ℝ)} (h0 : d ≠ [])
    (hrect : ∀ row ∈ d, row.length = (d.headD []).length) :
    V1.validateMat d = .ok () := by
  unfold V1.validateMat
  rw [if_neg (by simpa [List.length_eq_zero] using h0), if_pos hrect]

theorem validateMatV2_ok {d : List (List ℝ)} (h0 : d ≠ [])
    (hrect : ∀ row ∈ d, row.length = (d.headD []).length) :
    V2.validateMat d = .ok () := by
  unfold V2.validateMat
  rw [if_neg (by simpa [List.length_eq_zero] using h0), if_pos hrect]

theorem mulGrid_length (a b : List (List ℝ)) :
    (V1.mulGrid a b).length = a.length := by simp [V1.mulGrid]

theorem mulGrid_rows (a b : List (List ℝ)) :
    ∀ row ∈ V1.mulGrid a b, row.length = (b.headD []).length := by
  intro row hr
  unfold V1.mulGrid at hr
  simp only [List.mem_map, List.mem_range] at hr
  obtain ⟨i, _, rfl⟩ := hr
  simp

/-- The entry formula of the triple multiplication loop. -/
theorem mulGrid_entry (a b : List (List ℝ)) {i j : ℕ} (hi : i < a.length)
    (hj : j < (b.headD []).length) :
    ((V1.mulGrid a b).getD i []).getD j 0
      = ∑ k ∈ Finset.range b.length,
          (a.getD i []).getD k 0 * (b.getD k []).getD j 0 := by
  unfold V1.mulGrid
  rw [getD_map_range hi, getD_map_range hj, foldl_add_range]
  simp

/-- The product grid is rectangular, with the first row's length. -/
theorem mulGrid_rect (a b : List (List ℝ)) :
    ∀ row ∈ V1.mulGrid a b, row.length = ((V1.mulGrid a b).headD []).length := by
  intro row hr
  rcases hg : V1.mulGrid a b with _ | ⟨r0, rest⟩
  · rw [hg] at hr
    cases hr
  · rw [hg] at hr
    rw [mulGrid_rows a b row (hg ▸ hr)]
    have h0 : r0 ∈ V1.mulGrid a b := by rw [hg]; exact List.mem_cons_self ..
    simp only [List.headD_cons]
    rw [mulGrid_rows a b r0 h0]

/-- C8 (amended): for matrices (non-empty rectangular grids), `multiply`
with mismatched inner dimensions always fails — in the `SimulationResult`
variant with a computation-classified wrapper whose wrapped cause is the
validation-kind dimension error, and in the plain variant with an
unclassified `Error` — and never silently truncates; with conforming inner
dimensions both variants return the standard matrix product
(`p[i][j] = Σ_k a[i][k]·b[k][j]`, of shape `a.length × b[0].length`). -/
theorem matrix_multiply_check (a b : List (List ℝ)) (ha : a ≠ [])
    (harect : ∀ row ∈ a, row.length = (a.headD []).length)
    (hb : b ≠ []) (hbrect : ∀ row ∈ b, row.length = (b.headD []).length) :
    ((a.headD []).length ≠ b.length →
      V1.matMul a b
        = .error (.simErr .computation "Matrix multiplication failed".toList
            (some (.simErr .validation
              "Invalid matrix dimensions for multiplication".toList none)))
      ∧ V2.matMul a b
        = .error (.jsError
            "Invalid matrix dimensions for multiplication".toList))
    ∧ ((a.headD []).length = b.length →
      V1.matMul a b = .ok (V1.mulGrid a b)
      ∧ V2.matMul a b = .ok (V1.mulGrid a b)
      ∧ (V1.mulGrid a b).length = a.length
      ∧ (∀ row ∈ V1.mulGrid a b, row.length = (b.headD []).length)
      ∧ ∀ i j, i < a.length → j < (b.headD []).length →
          ((V1.mulGrid a b).getD i []).getD j 0
            = ∑ k ∈ Finset.range b.length,
                (a.getD i []).getD k 0 * (b.getD k []).getD j 0) := by
  constructor
  · intro hne
    refine ⟨?_, ?_⟩
    · unfold V1.matMul
      rw [if_pos hne]
      rfl
    · unfold V2.matMul
      rw [if_pos hne]
  · intro heq
    have hgrid0 : V1.mulGrid a b ≠ [] := by
      intro h0
      have h1 := mulGrid_length a b
      rw [h0] at h1
      exact ha (List.length_eq_zero.mp h1.symm)
    refine ⟨?_, ?_, mulGrid_length a b, mulGrid_rows a b,
      fun i j hi hj => mulGrid_entry a b hi hj⟩
    · unfold V1.matMul
      rw [if_neg (show ¬ (a.headD []).length ≠ b.length from fun h => h heq),
        validateMatV1_ok hgrid0 (mulGrid_rect a b)]
      rfl
    · unfold V2.matMul
      rw [if_neg (show ¬ (a.headD []).length ≠ b.length from fun h => h heq)]
      unfold V2.mkMat
      have hsame : (List.range a.length).map (fun i =>
          (List.range (b.headD []).length).map (fun j =>
            (List.range (a.headD []).length).foldl
              (fun sum k => sum + (a.getD i []).getD k 0
                * (b.getD k []).getD j 0) 0)) = V1.mulGrid a b := by
        unfold V1.mulGrid
        rw [heq]
      rw [hsame, validateMatV2_ok hgrid0 (mulGrid_rect a b)]
      rfl

/-- C8, counterexample to "fails with a validation error": a `1×2` times
`1×1` multiply in the `SimulationResult` variant surfaces a
computation-classified error — the validation error is only the wrapped
cause, not the classification of the thrown error. -/
theorem matrix_multiply_kind_counterexample :
    V1.matMul [[1, 2]] [[1]]
      = .error (.simErr .computation "Matrix multiplication failed".toList
          (some (.simErr .validation
            "Invalid matrix dimensions for multiplication".toList none))) :=
  rfl

/-- Witness for C8 on a conforming `2×2 · 2×1` pair. -/
theorem matrix_multiply_check_witness :
    V1.matMul [[1, 2], [3, 4]] [[5], [6]]
      = .ok (V1.mulGrid [[1, 2], [3, 4]] [[5], [6]])
    ∧ V2.matMul [[1, 2], [3, 4]] [[5], [6]]
      = .ok (V1.mulGrid [[1, 2], [3, 4]] [[5], [6]]) := by
  have h := (matrix_multiply_check [[1, 2], [3, 4]] [[5], [6]]
    (by simp) (by simp) (by simp) (by simp)).2 rfl
  exact ⟨h.1, h.2.1⟩

theorem transposeGrid_length (g : List (List ℝ)) :
    (V2.transposeGrid g).length = (g.headD []).length := by
  simp [V2.transposeGrid]

theorem transposeGrid_getElem (g : List (List ℝ)) {i : ℕ}
    (h2 : i < (V2.transposeGrid g).length) :
    (V2.transposeGrid g)[i]
      = (List.range g.length).map (fun r => (g.getD r []).getD i 0) := by
  unfold V2.transposeGrid at h2 ⊢
  rw [List.getElem_map, List.getElem_range]

/-- C9: for every Matrix grid that is non-empty in both dimensions
(`rows ≥ 1`, `cols ≥ 1`) and rectangular, transposing twice yields the
original grid, and both transposes pass the result-constructor
validation. -/
theorem transpose_involution (g : List (List ℝ)) (hr : 1 ≤ g.length)
    (hc : 1 ≤ (g.headD []).length)
    (hrect : ∀ row ∈ g, row.length = (g.headD []).length) :
    V2.transposeGrid (V2.transposeGrid g) = g
    ∧ V2.transposeM g = .ok (V2.transposeGrid g)
    ∧ V2.transposeM (V2.transposeGrid g) = .ok g := by
  have hTlen : (V2.transposeGrid g).length = (g.headD []).length :=
    transposeGrid_length g
  have hTrow : ∀ j, j < (g.headD []).length →
      (V2.transposeGrid g).getD j []
        = (List.range g.length).map (fun i => (g.getD i []).getD j 0) := by
    intro j hj
    unfold V2.transposeGrid
    rw [getD_map_range hj]
  have hThead : ((V2.transposeGrid g).headD []).length = g.length := by
    rw [headD_eq_getD, hTrow 0 hc]
    simp
  have hTrect : ∀ row ∈ V2.transposeGrid g,
      row.length = ((V2.transposeGrid g).headD []).length := by
    intro row hrow
    unfold V2.transposeGrid at hrow
    simp only [List.mem_map, List.mem_range] at hrow
    obtain ⟨j, _, rfl⟩ := hrow
    rw [hThead]
    simp
  have hmain : V2.transposeGrid (V2.transposeGrid g) = g := by
    apply List.ext_getElem
    · rw [transposeGrid_length, hThead]
    · intro i h1 h2
      have hiR : i < g.length := h2
      have hrowlen : g[i].length = (g.headD []).length :=
        hrect _ (List.getElem_mem h2)
      rw [transposeGrid_getElem (V2.transposeGrid g) h1]
      apply List.ext_getElem
      · simp [hTlen, hrowlen]
      · intro j hj1 hj2
        have hj : j < (g.headD []).length := by
          have h3 : j < g[i].length := hj2
          rwa [hrowlen] at h3
        rw [List.getElem_map, List.getElem_range, hTrow _ hj,
          getD_map_range hiR, List.getD_eq_getElem g [] hiR,
          List.getD_eq_getElem _ _ hj2]
  have hT0 : V2.transposeGrid g ≠ [] := by
    intro h0
    rw [h0] at hTlen
    have h2 : 0 = (g.headD []).length := hTlen
    omega
  have hg0 : g ≠ [] := by
    intro h0
    rw [h0] at hr
    exact absurd hr (by simp)
  refine ⟨hmain, ?_, ?_⟩
  · unfold V2.transposeM V2.mkMat
    rw [validateMatV2_ok hT0 hTrect]
    rfl
  · unfold V2.transposeM V2.mkMat
    rw [hmain, validateMatV2_ok hg0 hrect]
    rfl

/-- Witness for C9 on the `2×2` grid `[[1,2],[3,4]]`. -/
theorem transpose_involution_witness :
    V2.transposeGrid (V2.transposeGrid [[1, 2], [3, 4]]) = [[1, 2], [3, 4]]
    ∧ V2.transposeM [[1, 2], [3, 4]]
      = .ok (V2.transposeGrid [[1, 2], [3, 4]])
    ∧ V2.transposeM (V2.transposeGrid [[1, 2], [3, 4]])
      = .ok [[1, 2], [3, 4]] :=
  transpose_involution [[1, 2], [3, 4]] (by simp) (by simp) (by simp)

/-! ## C2: the FFT's power-of-two requirement -/

theorem evens_length {α : Type} : (l : List α) →
    (V2.evens l).length = (l.length + 1) / 2
  | [] => by simp [V2.evens]
  | [_] => by simp [V2.evens]
  | _ :: _ :: rest => by
    simp only [V2.evens, List.length_cons, evens_length rest]
    omega

theorem odds_length {α : Type} (l : List α) :
    (V2.odds l).length = l.length / 2 := by
  cases l with
  | nil => simp [V2.odds]
  | cons a rest =>
    simp only [V2.odds, evens_length rest, List.length_cons]

theorem fftF_base (fuel : ℕ) (l : List ℝ) (h : l.length ≤ 1) :
    V2.fftF fuel l = .ok (l.map (fun x => (x, 0))) := by
  cases fuel <;> simp [V2.fftF, h]

theorem combineLoop_length (n : ℕ) (ev od : List V2.Cx) :
    ∀ (ks : List ℕ) (acc res : List (Option V2.Cx)),
      V2.combineLoop n ev od ks acc = .ok res → res.length = acc.length := by
  intro ks
  induction ks with
  | nil =>
    intro acc res h
    unfold V2.combineLoop at h
    cases h
    rfl
  | cons k ks ih =>
    intro acc res h
    unfold V2.combineLoop at h
    split at h
    next => cases h
    next oK hod =>
      split at h
      next => cases h
      next eK hev =>
        have h2 := ih _ _ h
        rw [h2]
        by_cases hpar : n % 2 = 0 <;> simp [hpar]

theorem combineLoop_error_typeError (n : ℕ) (ev od : List V2.Cx) :
    ∀ (ks : List ℕ) (acc : List (Option V2.Cx)) (e : JsErr),
      V2.combineLoop n ev od ks acc = .error e → e = .typeError := by
  intro ks
  induction ks with
  | nil =>
    intro acc e h
    unfold V2.combineLoop at h
    cases h
  | cons k ks ih =>
    intro acc e h
    unfold V2.combineLoop at h
    split at h
    next => exact (Except.error.inj h).symm
    next oK hod =>
      split at h
      next => exact (Except.error.inj h).symm
      next eK hev => exact ih _ _ h

/-- If some loop index reaches the end of the odd-half result, the
butterfly loop throws (either there, or even earlier — always the engine's
`TypeError`). -/
theorem combineLoop_fails (n : ℕ) (ev od : List V2.Cx) :
    ∀ (ks : List ℕ) (acc : List (Option V2.Cx)),
      (∃ k ∈ ks, od.length ≤ k) →
      V2.combineLoop n ev od ks acc = .error .typeError := by
  intro ks
  induction ks with
  | nil =>
    intro acc h
    simp at h
  | cons k ks ih =>
    intro acc h
    unfold V2.combineLoop
    cases hod : od[k]? with
    | none => rfl
    | some oK =>
      cases hev : ev[k]? with
      | none => rfl
      | some eK =>
        apply ih
        obtain ⟨k0, hk0, hge⟩ := h
        rcases List.mem_cons.mp hk0 with rfl | hk0r
        · exact absurd hod (by rw [List.getElem?_eq_none hge]; simp)
        · exact ⟨k0, hk0r, hge⟩

theorem fftF_error_typeError :
    ∀ (fuel : ℕ) (l : List ℝ) (e : JsErr),
      V2.fftF fuel l = .error e → e = .typeError := by
  intro fuel
  induction fuel with
  | zero =>
    intro l e h
    unfold V2.fftF at h
    by_cases hb : l.length ≤ 1
    · rw [if_pos hb] at h; cases h
    · rw [if_neg hb] at h; exact (Except.error.inj h).symm
  | succ fuel ih =>
    intro l e h
    unfold V2.fftF at h
    by_cases hb : l.length ≤ 1
    · rw [if_pos hb] at h; cases h
    · rw [if_neg hb] at h
      split at h
      next e2 hev => cases Except.error.inj h; exact ih _ _ hev
      next ev hev =>
        split at h
        next e2 hod => cases Except.error.inj h; exact ih _ _ hod
        next od hod =>
          split at h
          next e2 hcl =>
            cases Except.error.inj h
            exact combineLoop_error_typeError _ _ _ _ _ _ hcl
          next res hcl => cases h

theorem fftF_ok_length :
    ∀ (fuel : ℕ) (l : List ℝ) (r : List V2.Cx),
      V2.fftF fuel l = .ok r → r.length = l.length := by
  intro fuel
  induction fuel with
  | zero =>
    intro l r h
    unfold V2.fftF at h
    by_cases hb : l.length ≤ 1
    · rw [if_pos hb] at h; cases h; simp
    · rw [if_neg hb] at h; cases h
  | succ fuel ih =>
    intro l r h
    unfold V2.fftF at h
    by_cases hb : l.length ≤ 1
    · rw [if_pos hb] at h; cases h; simp
    · rw [if_neg hb] at h
      split at h
      next e2 hev => cases h
      next ev hev =>
        split at h
        next e2 hod => cases h
        next od hod =>
          split at h
          next e2 hcl => cases h
          next res hcl =>
            cases Except.ok.inj h
            have h2 := combineLoop_length _ _ _ _ _ _ hcl
            simp at h2
            simp [h2]

/-- An even non-power-of-two has a non-power-of-two half. -/
theorem not_isPow2_half {n : ℕ} (he : n % 2 = 0) (hp : ¬ IsPow2 n) :
    ¬ IsPow2 (n / 2) := by
  rintro ⟨k, hk⟩
  exact hp ⟨k + 1, by rw [pow_succ]; omega⟩

/-- An even non-power-of-two of size at least 2 is at least 6. -/
theorem six_le_of_even_not_pow2 {n : ℕ} (h2 : 2 ≤ n) (he : n % 2 = 0)
    (hp : ¬ IsPow2 n) : 6 ≤ n := by
  by_contra h6
  have : n = 2 ∨ n = 4 := by omega
  rcases this with rfl | rfl
  · exact hp ⟨1, rfl⟩
  · exact hp ⟨2, rfl⟩

/-- The failing core of C2: on any length that is at least 2 and not a
power of two, the FFT recursion throws the `TypeError` of an out-of-bounds
complex access. -/
theorem fftF_not_pow2 :
    ∀ (fuel : ℕ) (l : List ℝ), l.length ≤ fuel → 2 ≤ l.length →
      ¬ IsPow2 l.length → V2.fftF fuel l = .error .typeError := by
  intro fuel
  induction fuel with
  | zero =>
    intro l hf h2 _
    omega
  | succ fuel ih =>
    intro l hf h2 hp
    have hb : ¬ l.length ≤ 1 := by omega
    unfold V2.fftF
    rw [if_neg hb]
    by_cases hpar : l.length % 2 = 0
    · have h6 := six_le_of_even_not_pow2 h2 hpar hp
      have hev : (V2.evens l).length = l.length / 2 := by
        rw [evens_length]
        omega
      have hrec := ih (V2.evens l) (by omega) (by omega)
        (by rw [hev]; exact not_isPow2_half hpar hp)
      rw [hrec]
    · cases hev : V2.fftF fuel (V2.evens l) with
      | error e2 =>
        have h3 := fftF_error_typeError fuel _ _ hev
        subst h3
        rfl
      | ok ev =>
        cases hod : V2.fftF fuel (V2.odds l) with
        | error e2 =>
          have h3 := fftF_error_typeError fuel _ _ hod
          subst h3
          rfl
        | ok od =>
          have hodlen : od.length = l.length / 2 := by
            rw [fftF_ok_length fuel _ _ hod, odds_length]
          show ((match V2.combineLoop l.length ev od
              (List.range ((l.length + 1) / 2))
              (List.replicate l.length none) with
            | .error e => Except.error e
            | .ok res => Except.ok (res.map (fun o => o.getD (0, 0))))
              : Except JsErr (List V2.Cx))
            = .error .typeError
          rw [combineLoop_fails l.length ev od
            (List.range ((l.length + 1) / 2)) (List.replicate l.length none)
            ⟨od.length, by rw [hodlen]; simp only [List.mem_range]; omega,
              le_rfl⟩]

/-- C2 (amended): `fft()` on a Signal whose sample count is at most 1
returns each sample as a zero-imaginary complex value; on every Signal
whose sample count is greater than 1 and not a power of two the call fails
— but the failure is the engine's unclassified `TypeError` (reading `.re`
of the `undefined` produced by an out-of-bounds access on the odd-half
array), not a classified validation error: this variant's `fft` contains
no validation check at all. -/
theorem fft_power_of_two_requirement (s : V2.Signal) :
    (s.data.length ≤ 1 →
      s.fftM = .ok (s.data.map (fun x => (x, 0))))
    ∧ (2 ≤ s.data.length → ¬ IsPow2 s.data.length →
      s.fftM = .error .typeError) :=
  ⟨fun h => fftF_base _ _ h,
    fun h2 hp => fftF_not_pow2 s.data.length s.data le_rfl h2 hp⟩

/-- Witness for C2's amended theorem: the singleton signal transforms to
its sample with zero imaginary part, and length 3 (not a power of two)
throws the `TypeError`. -/
theorem fft_power_of_two_requirement_witness :
    V2.Signal.fftM ⟨[5], 1000⟩ = .ok [((5 : ℝ), 0)]
    ∧ V2.Signal.fftM ⟨[1, 2, 3], 1000⟩ = .error .typeError :=
  ⟨(fft_power_of_two_requirement ⟨[5], 1000⟩).1 (by simp),
    (fft_power_of_two_requirement ⟨[1, 2, 3], 1000⟩).2 (by simp)
      (by
        rintro ⟨k, hk⟩
        rcases k with _ | _ | k
        · simp at hk
        · simp at hk
        · simp only [List.length_cons, List.length_nil] at hk
          have h4 : 4 ≤ 2 ^ (k + 2) := by
            have h5 : 2 ^ 2 ≤ 2 ^ (k + 2) :=
              Nat.pow_le_pow_right (by norm_num) (by omega)
            simpa using h5
          omega)⟩

/-- C2, counterexample to "fails with a validation error": on the
three-sample signal `fft` throws the unclassified engine `TypeError`; no
`SimulationError` of kind `validation` (nor any classified error) is
raised. -/
theorem fft_not_validation_counterexample :
    V2.Signal.fftM ⟨[1, 2, 3], 1000⟩ = .error .typeError := rfl


/-! ## JsNum evaluation lemmas (IEEE special-value propagation) -/

theorem jsMul_nan_right (v : JsNum) : jsMul v .nan = .nan := by
  cases v <;> rfl

theorem jsMul_nan_left (v : JsNum) : jsMul .nan v = .nan := by
  cases v <;> rfl

theorem jsSub_nan_right (v : JsNum) : jsSub v .nan = .nan := by
  cases v <;> rfl

theorem jsDiv_nan_left (v : JsNum) : jsDiv .nan v = .nan := by
  cases v <;> rfl

theorem jsDiv_nan_right (v : JsNum) : jsDiv v .nan = .nan := by
  cases v <;> rfl

theorem jsDiv_pos_zero {a : ℝ} (h : 0 < a) :
    jsDiv (.fin a) (.fin 0) = .inf := by
  simp [jsDiv, h]

theorem jsDiv_neg_zero {a : ℝ} (h : a < 0) :
    jsDiv (.fin a) (.fin 0) = .ninf := by
  simp [jsDiv, h, h.not_lt]

theorem jsDiv_zero_zero : jsDiv (.fin 0) (.fin 0) = .nan := by
  simp [jsDiv]

theorem jsDiv_inf_pos {d : ℝ} (h : 0 < d) : jsDiv .inf (.fin d) = .inf := by
  simp [jsDiv, h.not_lt]

theorem jsDiv_inf_neg {d : ℝ} (h : d < 0) : jsDiv .inf (.fin d) = .ninf := by
  simp [jsDiv, h]

theorem jsMul_inf_pos {t : ℝ} (h : 0 < t) :
    jsMul .inf (.fin t) = .inf := by
  simp [jsMul, h]

theorem jsMul_inf_zero : jsMul .inf (.fin 0) = .nan := by
  simp [jsMul]

theorem jsMul_ninf_neg {t : ℝ} (h : t < 0) :
    jsMul .ninf (.fin t) = .inf := by
  simp [jsMul, h, h.not_lt]

theorem jsMul_ninf_zero : jsMul .ninf (.fin 0) = .nan := by
  simp [jsMul]

theorem jsMul_zero_inf : jsMul (.fin 0) .inf = .nan := by
  simp [jsMul]

theorem jsMul_fin_zero_left {v : JsNum} (hv : v = .inf ∨ v = .ninf ∨ v = .nan) :
    jsMul (.fin 0) v = .nan := by
  rcases hv with rfl | rfl | rfl <;> simp [jsMul]

/-! ## C3: the Hamming window on a one-sample Signal -/

/-- The `N = 1` Hamming factor is `0.54 - 0.46 * cos(0/0) = NaN`; there is
no guard. -/
theorem windowFactor_hamming_single : V1.windowFactor .hamming 1 0 = .nan := by
  unfold V1.windowFactor
  norm_num [jsMul, jsDiv, jsCos, jsSub]

/-- C3, the code at the claim's boundary case: applying a Hamming window
to any one-sample Signal throws — the `NaN` window factor contaminates the
sample, the `Signal` constructor rejects it with a validation error, and
the `catch` rewraps that as the computation-classified
"Failed to apply window". The claim's guarded, non-throwing behaviour does
not exist in the code. -/
theorem applyWindow_hamming_single_throws (v : JsNum) (rate : ℚ) :
    V1.applyWindow ⟨[v], rate⟩ .hamming
      = .error (.simErr .computation "Failed to apply window".toList
          (some (.simErr .validation
            "Invalid signal data: array must contain only numbers".toList
            none))) := by
  unfold V1.applyWindow V1.mkSignal V1.validateData
  have hlist : (List.range ([v] : List JsNum).length).map (fun i =>
      jsMul (([v] : List JsNum).getD i .nan)
        (V1.windowFactor .hamming ([v] : List JsNum).length i))
      = [JsNum.nan] := by
    simp [List.range_succ, windowFactor_hamming_single, jsMul_nan_right]
  rw [hlist]
  rw [if_neg (by simp [JsNum.isNaN])]
  rfl

/-! ## C6: the exponential chirp at `startFreq = 0` -/

/-- Every sample of the exponential chirp with `startFreq = 0` is `NaN`
(provided `duration * sampleRate ≥ 1`, which holds whenever at least one
sample exists): the `0/0` or `±∞` frequency ratio poisons `freqScale`, and
`2π·0·(exp(freqScale·t) − 1)` is `0·NaN` or `0·∞`, both `NaN`. -/
theorem chirpExpSample_zero_nan (e d r : ℚ) (hdr : 1 ≤ d * r) (i : ℕ) :
    V1.chirpExpSample 0 e d r i = .nan := by
  have hdr0 : 0 < d * r := lt_of_lt_of_le one_pos hdr
  have hr : r ≠ 0 := by rintro rfl; simp at hdr0
  have hrR : ((r : ℝ)) ≠ 0 := by exact_mod_cast hr
  simp only [V1.chirpExpSample]
  rcases lt_trichotomy e 0 with he | rfl | he
  · have heR : ((e : ℝ)) < 0 := by exact_mod_cast he
    simp [jsDiv, jsLog, jsMul, jsExp, jsSub, jsSin, heR, heR.not_lt, hrR]
  · simp [jsDiv, jsLog, jsMul, jsExp, jsSub, jsSin, hrR]
  · have heR : (0 : ℝ) < (e : ℝ) := by exact_mod_cast he
    rcases mul_pos_iff.mp hdr0 with ⟨hd, hr2⟩ | ⟨hd, hr2⟩
    · have hdR : (0 : ℝ) < (d : ℝ) := by exact_mod_cast hd
      have hrR2 : (0 : ℝ) < (r : ℝ) := by exact_mod_cast hr2
      cases i with
      | zero =>
        simp [jsDiv, jsLog, jsMul, jsExp, jsSub, jsSin, heR, heR.not_lt,
          hrR, hdR.not_lt]
      | succ j =>
        have htpos : (0 : ℝ) < ((j : ℝ) + 1) / (r : ℝ) :=
          div_pos (by positivity) hrR2
        simp [jsDiv, jsLog, jsMul, jsExp, jsSub, jsSin, heR, heR.not_lt,
          hrR, hdR.not_lt, htpos, htpos.not_lt]
    · have hdR : ((d : ℝ)) < 0 := by exact_mod_cast hd
      have hrR2 : ((r : ℝ)) < 0 := by exact_mod_cast hr2
      cases i with
      | zero =>
        simp [jsDiv, jsLog, jsMul, jsExp, jsSub, jsSin, heR, heR.not_lt,
          hrR, hdR]
      | succ j =>
        have htneg : ((j : ℝ) + 1) / (r : ℝ) < 0 :=
          div_neg_of_pos_of_neg (by positivity) hrR2
        simp [jsDiv, jsLog, jsMul, jsExp, jsSub, jsSin, heR, heR.not_lt,
          hrR, hdR, htneg, htneg.not_lt]

/-- C6 (amended): `generateChirp` with method `"exponential"` and
`startFreq = 0` has no explicit guard; when at least one sample exists
every sample is `NaN`, so the `Signal` constructor rejects the data and
the call fails with a validation-classified error (not a computation
error — `generateChirp` has no `try`/`catch`); the call therefore never
returns a Signal containing `NaN` or `Infinity` samples, and with a
zero sample count it returns an empty Signal. -/
theorem chirp_exp_zero_guard (e d r : ℚ) :
    (1 ≤ ⌊d * r⌋ →
      V1.generateChirp
          { startFreq := 0, endFreq := e, duration := d,
            method := some .exponential, sampleRate := some r }
        = .error (.simErr .validation
            "Invalid signal data: array must contain only numbers".toList
            none))
    ∧ (⌊d * r⌋ = 0 →
      V1.generateChirp
          { startFreq := 0, endFreq := e, duration := d,
            method := some .exponential, sampleRate := some r }
        = .ok ⟨[], r⟩) := by
  constructor
  · intro hn
    have hdr : 1 ≤ d * r := by exact_mod_cast Int.le_floor.mp hn
    unfold V1.generateChirp V1.mkSignal V1.validateData
    simp only [Option.getD_some]
    rw [if_neg (by omega)]
    have hmem : JsNum.nan ∈ (List.range (⌊d * r⌋).toNat).map
        (V1.chirpExpSample 0 e d r) :=
      List.mem_map.mpr ⟨0, by simp only [List.mem_range]; omega,
        chirpExpSample_zero_nan e d r hdr 0⟩
    rw [if_neg (fun hall => (hall _ hmem) trivial)]
    rfl
  · intro hn0
    unfold V1.generateChirp V1.mkSignal V1.validateData
    simp only [Option.getD_some]
    rw [if_neg (by omega)]
    have ht0 : (⌊d * r⌋).toNat = 0 := by omega
    simp [ht0]
    rfl

/-- C6, counterexample to "fails with a computation-classified error":
with `startFreq = 0`, `endFreq = 1`, `duration = 1`, `sampleRate = 2`
(two samples), the exponential chirp fails with a validation-classified
error raised by the `Signal` constructor — not a computation error, and
not from any explicit guard. -/
theorem chirp_exp_zero_counterexample :
    V1.generateChirp
        { startFreq := 0, endFreq := 1, duration := 1,
          method := some .exponential, sampleRate := some 2 }
      = .error (.simErr .validation
          "Invalid signal data: array must contain only numbers".toList
          none) := by
  unfold V1.generateChirp V1.mkSignal V1.validateData
  simp only [Option.getD_some]
  rw [if_neg (by norm_num)]
  have hmem : JsNum.nan ∈ (List.range (⌊(1 : ℚ) * 2⌋).toNat).map
      (V1.chirpExpSample 0 1 1 2) :=
    List.mem_map.mpr ⟨0, by norm_num,
      chirpExpSample_zero_nan 1 1 2 (by norm_num) 0⟩
  rw [if_neg (fun hall => (hall _ hmem) trivial)]
  rfl

/-- Witness for C6's amended theorem: two samples fail with the
validation error; a zero-duration chirp returns the empty Signal. -/
theorem chirp_exp_zero_guard_witness :
    V1.generateChirp
        { startFreq := 0, endFreq := 1, duration := 1,
          method := some .exponential, sampleRate := some 2 }
      = .error (.simErr .validation
          "Invalid signal data: array must contain only numbers".toList
          none)
    ∧ V1.generateChirp
        { startFreq := 0, endFreq := 1, duration := 0,
          method := some .exponential, sampleRate := some 2 }
      = .ok ⟨[], 2⟩ :=
  ⟨(chirp_exp_zero_guard 1 1 2).1 (by norm_num),
    (chirp_exp_zero_guard 1 0 2).2 (by norm_num)⟩

/-! ## C4: the EMD payload -/

/-- C4 (amended): whenever `decompose` returns, its result payload is the
empty list — the sifting loops run internally, but the `modes` array the
source builds is discarded and `{ data: [] }` is returned. -/
theorem decompose_payload_empty (fuel : ℕ) (s : V1.Signal)
    (method : V1.DecompMethod) (numModes : ℕ) (r : List V1.Signal)
    (h : V1.decompose fuel s method numModes = some (.ok r)) : r = [] := by
  unfold V1.decompose at h
  cases method with
  | emd =>
    cases hE : V1.emdLoop fuel s.data numModes with
    | none => rw [hE] at h; cases h
    | some res =>
      rw [hE] at h
      simp only [Option.map_some', Option.some.injEq] at h
      cases res with
      | error e => simp [Except.map] at h
      | ok modes =>
        simp only [Except.map, Except.ok.injEq] at h
        exact h.symm
  | ssa =>
    simp only [Option.some.injEq, Except.ok.injEq] at h
    exact h.symm
  | pca =>
    simp only [Option.some.injEq, Except.ok.injEq] at h
    exact h.symm

/-- One sifting pass on the empty sample list is the empty list, and the
convergence criterion holds there (`√0 < 0.05`), so the sifting loop exits
on its first iteration. -/
theorem sift_empty : V1.sift 2 [] = some [] := by
  have hstep : V1.siftStep [] = [] := by
    simp [V1.siftStep, V1.computeEnvelope, V1.findExtrema]
  have hcheck : V1.checkIMFCriterion [] [] = true := by
    unfold V1.checkIMFCriterion
    simp only [List.length_nil, List.range_zero, List.foldl_nil]
    rw [show jsSqrt (.fin 0) = .fin 0 by simp [jsSqrt, Real.sqrt_zero]]
    simp [jsLt]
    norm_num
  unfold V1.sift
  rw [hstep]
  simp [hcheck]

/-- The mode loop on the empty signal: each mode sifts out `[]` at once. -/
theorem emdLoop_empty : V1.emdLoop 2 [] 1 = some (.ok [⟨[], 0⟩]) := by
  unfold V1.emdLoop
  rw [sift_empty]
  rfl

/-- C4, counterexample: on the empty Signal with `numModes = 1` the call
returns (the loop converges immediately), yet the payload is `[]`, not one
mode Signal per requested mode. -/
theorem decompose_empty_counterexample :
    V1.decompose 2 ⟨[], 1000⟩ .emd 1 = some (.ok []) := by
  unfold V1.decompose
  rw [show (V1.Signal.mk [] 1000).data = [] from rfl, emdLoop_empty]
  rfl

/-- Witness for C4's amended theorem at the terminating concrete input. -/
theorem decompose_payload_empty_witness :
    V1.decompose 2 ⟨[], 1000⟩ .emd 1 = some (.ok ([] : List V1.Signal))
    ∧ ([] : List V1.Signal) = [] := by
  have hrun : V1.decompose 2 ⟨[], 1000⟩ .emd 1
      = some (.ok ([] : List V1.Signal)) := by
    unfold V1.decompose
    rw [show (V1.Signal.mk [] 1000).data = [] from rfl, emdLoop_empty]
    rfl
  exact ⟨hrun, decompose_payload_empty 2 ⟨[], 1000⟩ .emd 1 [] hrun⟩

/-! ## C5: string and environment lemmas for the sine-assignment pipeline -/

theorem jsTrim_length_le (l : Str) : (jsTrim l).length ≤ l.length := by
  unfold jsTrim
  simp only [List.length_reverse]
  calc ((l.dropWhile isSpaceChar).reverse.dropWhile isSpaceChar).length
      ≤ (l.dropWhile isSpaceChar).reverse.length :=
        (List.dropWhile_sublist _).length_le
    _ = (l.dropWhile isSpaceChar).length := List.length_reverse _
    _ ≤ l.length := (List.dropWhile_sublist _).length_le

theorem jsTrim_append_space {c : Char} (h : isSpaceChar c = true) (l : Str) :
    jsTrim (l ++ [c]) = jsTrim l := by
  unfold jsTrim
  rw [List.dropWhile_append]
  by_cases h1 : (l.dropWhile isSpaceChar).isEmpty
  · rw [if_pos h1]
    have h2 : l.dropWhile isSpaceChar = [] := by
      simpa [List.isEmpty_iff] using h1
    rw [h2]
    simp [List.dropWhile, h]
  · rw [if_neg h1]
    simp [h]

theorem head_not_space_of_trimmed {l : Str} (ht : jsTrim l = l)
    (h0 : l ≠ []) : ∃ c rest, l = c :: rest ∧ isSpaceChar c = false := by
  cases l with
  | nil => exact absurd rfl h0
  | cons c rest =>
    refine ⟨c, rest, rfl, ?_⟩
    by_contra hs
    have hs2 : isSpaceChar c = true := by simpa using hs
    have h3 := jsTrim_cons_space hs2 rest
    have hlen := jsTrim_length_le rest
    rw [← h3, ht] at hlen
    simp at hlen

theorem last_not_space_of_trimmed {l : Str} (ht : jsTrim l = l)
    (h0 : l ≠ []) : ∃ mid y, l = mid ++ [y] ∧ isSpaceChar y = false := by
  obtain ⟨mid, y, hmy⟩ : ∃ mid y, l = mid ++ [y] := by
    rcases hrev : l.reverse with _ | ⟨y, rev2⟩
    · exact absurd (by simpa using congrArg List.reverse hrev) h0
    · exact ⟨rev2.reverse, y, by simpa using congrArg List.reverse hrev⟩
  subst hmy
  refine ⟨mid, y, rfl, ?_⟩
  by_contra hs
  have hs2 : isSpaceChar y = true := by simpa using hs
  have heq := jsTrim_append_space hs2 mid
  rw [ht] at heq
  have hlen := jsTrim_length_le mid
  rw [← heq] at hlen
  simp at hlen

theorem idxOfChar_append {c : Char} {a : Str} (b : Str) (h : c ∉ a) :
    V1.idxOfChar c (a ++ c :: b) = some a.length := by
  induction a with
  | nil => simp [V1.idxOfChar]
  | cons d rest ih =>
    simp only [List.mem_cons, not_or] at h
    have hne : ¬ d = c := fun hdc => h.1 hdc.symm
    simp only [List.cons_append, V1.idxOfChar, if_neg hne, List.append_eq,
      ih h.2, Option.map_some', List.length_cons]

theorem findParenAux_skip : ∀ (s rest : Str) (count : ℤ) (sf : Bool)
      (i : ℕ), '(' ∉ s → ')' ∉ s →
    V1.findParenAux (s ++ rest) count sf i
      = V1.findParenAux rest count sf (i + s.length)
  | [], rest, count, sf, i, _, _ => by simp
  | d :: tl, rest, count, sf, i, h1, h2 => by
    simp only [List.mem_cons, not_or] at h1 h2
    simp only [List.cons_append]
    have hlhs : V1.findParenAux (d :: (tl ++ rest)) count sf i
        = if d = '(' then V1.findParenAux (tl ++ rest) (count + 1) true (i + 1)
          else if d = ')' then
            (if sf = true ∧ count - 1 = 0 then some i
             else V1.findParenAux (tl ++ rest) (count - 1) sf (i + 1))
          else V1.findParenAux (tl ++ rest) count sf (i + 1) := rfl
    rw [hlhs, if_neg (fun hh => h1.1 hh.symm), if_neg (fun hh => h2.1 hh.symm),
      findParenAux_skip tl rest count sf (i + 1) h1.2 h2.2]
    have harith : i + (d :: tl).length = i + 1 + tl.length := by
      simp only [List.length_cons]
      omega
    rw [harith]

theorem findMatchingParen_shape (a m : Str) (ha1 : '(' ∉ a) (ha2 : ')' ∉ a)
    (hm1 : '(' ∉ m) (hm2 : ')' ∉ m) :
    V1.findMatchingParen (a ++ '(' :: (m ++ [')']))
      = .ok (a.length + 1 + m.length) := by
  unfold V1.findMatchingParen
  rw [findParenAux_skip a _ 0 false 0 ha1 ha2,
    show 0 + a.length = a.length from by omega]
  have step1 : V1.findParenAux ('(' :: (m ++ [')'])) 0 false a.length
      = V1.findParenAux (m ++ [')']) 1 true (a.length + 1) := by
    simp [V1.findParenAux]
  rw [step1, findParenAux_skip m [')'] 1 true _ hm1 hm2]
  have step2 : V1.findParenAux [')'] 1 true (a.length + 1 + m.length)
      = some (a.length + 1 + m.length) := by
    simp [V1.findParenAux]
  rw [step2]

theorem lookupVar_setVar_self (ws : V1.Ws) (n : Str) (v : V1.WsValue) :
    V1.lookupVar (V1.setVar ws n v) n = some v := by
  unfold V1.setVar
  split
  next hany =>
    unfold V1.lookupVar
    have hgen : ∀ (l : List (Str × V1.WsValue)),
        l.any (fun p => decide (p.1 = n)) = true →
        (l.map (fun p => if p.1 = n then (n, v) else p)).find?
          (fun p => decide (p.1 = n)) = some (n, v) := by
      intro l
      induction l with
      | nil => intro hl; simp at hl
      | cons hd tl ih =>
        intro hl
        by_cases hh : hd.1 = n
        · simp [List.find?, hh]
        · simp only [List.map_cons, if_neg hh]
          rw [List.find?_cons_of_neg _ (by simp [hh])]
          apply ih
          rw [List.any_cons] at hl
          rwa [decide_eq_false hh, Bool.false_or] at hl
    rw [hgen ws.vars hany]
    rfl
  next hany =>
    unfold V1.lookupVar
    rw [List.find?_append]
    have hnone : ws.vars.find? (fun p => decide (p.1 = n)) = none := by
      rw [List.find?_eq_none]
      intro x hx
      simp only [decide_eq_true_eq]
      intro hxn
      exact hany (List.any_eq_true.mpr ⟨x, hx, by simp [hxn]⟩)
    rw [hnone]
    simp [List.find?]

/-- Every sample of the default-parameter sine generator is a finite value
of absolute value at most 1. -/
theorem sineSample_bounded (f : ℚ) (i : ℕ) :
    ∃ t : ℝ, V1.sineSample f 44100 1 0 i = .fin t ∧ |t| ≤ 1 := by
  have h44 : ¬ ((44100 : ℚ) : ℝ) = 0 := by norm_num
  have h44b : ¬ ((44100 : ℝ)) = 0 := by norm_num
  unfold V1.sineSample
  simp [jsMul, jsDiv, jsAdd, jsSin, h44, h44b]
  first
  | exact ⟨_, rfl, Real.abs_sin_le_one _⟩
  | exact Real.abs_sin_le_one _

/-- `generateSine` with a nonnegative duration and the default rate
succeeds with `⌊d·44100⌋` sine samples. -/
theorem generateSine_ok (f d : ℚ) (hd0 : 0 ≤ d) :
    V1.generateSine f d 44100
      = .ok ⟨(List.range (⌊d * (44100 : ℚ)⌋).toNat).map
          (V1.sineSample f 44100 1 0), 44100⟩ := by
  unfold V1.generateSine
  rw [if_neg (by
    simp only [not_lt]
    exact Int.floor_nonneg.mpr (mul_nonneg hd0 (by norm_num)))]
  have hall : ∀ v ∈ (List.range (⌊d * (44100 : ℚ)⌋).toNat).map
      (V1.sineSample f 44100 1 0), ¬ JsNum.isNaN v := by
    intro v hv
    rcases List.mem_map.mp hv with ⟨i, hi, rfl⟩
    obtain ⟨t, ht, htb⟩ := sineSample_bounded f i
    rw [ht]
    simp [JsNum.isNaN]
  have hval : V1.validateData ((List.range (⌊d * (44100 : ℚ)⌋).toNat).map
      (V1.sineSample f 44100 1 0)) = .ok () := by
    unfold V1.validateData
    rw [if_pos hall]
  simp [V1.mkSignal, hval, Except.map, Except.mapError]

/-- Claim C5. For every well-formed assignment line `x = sine(f, d)` — a
trimmed non-empty variable name and trimmed numeric-literal arguments free
of the delimiter characters, with `sine` still bound to its builtin and a
nonnegative duration — `executeLine` succeeds, binds `x`, a subsequent
`getValue x` returns a Signal whose sample count is `⌊d·44100⌋` (44100
being the default sample rate), whose sample rate is 44100, and whose
every sample is finite with absolute value at most the default
amplitude 1. -/
theorem sine_assignment (fuel : ℕ) (ws : V1.Ws) (x fs ds : Str) (f d : ℚ)
    (hx1 : '=' ∉ x) (hx2 : jsTrim x = x) (hx3 : x ≠ [])
    (hfs1 : '=' ∉ fs) (hfs2 : '(' ∉ fs) (hfs3 : ')' ∉ fs) (hfs4 : ',' ∉ fs)
    (hfs5 : jsTrim fs = fs) (hfs6 : fs ≠ [])
    (hds1 : '=' ∉ ds) (hds2 : '(' ∉ ds) (hds3 : ')' ∉ ds) (hds4 : ',' ∉ ds)
    (hds5 : jsTrim ds = ds) (hds6 : ds ≠ [])
    (hf : jsNumber fs = some f) (hd : jsNumber ds = some d) (hd0 : 0 ≤ d)
    (hsine : V1.lookupVar ws "sine".toList = some (.builtin .sine)) :
    ∃ sig : V1.Signal,
      V1.executeLine (fuel + 1) ws
          (x ++ " = sine(".toList ++ fs ++ ", ".toList ++ ds ++ ")".toList)
        = .ok (V1.setVar ws x (.sig sig),
            x ++ " = ".toList ++ V1.formatOutput (.sig sig))
      ∧ V1.getValue (V1.setVar ws x (.sig sig)) x = some (.sig sig)
      ∧ sig.data.length = (⌊d * (44100 : ℚ)⌋).toNat
      ∧ sig.sampleRate = 44100
      ∧ ∀ v ∈ sig.data, ∃ t : ℝ, v = .fin t ∧ |t| ≤ 1 := by
  have hspace : isSpaceChar ' ' = true := rfl
  obtain ⟨cf, fr, hfsC, hcf⟩ := head_not_space_of_trimmed hfs5 hfs6
  obtain ⟨dm, dy, hdsC, hdy⟩ := last_not_space_of_trimmed hds5 hds6
  refine ⟨⟨(List.range (⌊d * (44100 : ℚ)⌋).toNat).map
    (V1.sineSample f 44100 1 0), 44100⟩, ?_, ?_, ?_, ?_, ?_⟩
  · -- the executeLine run
    have hlit : " = sine(".toList
        = ([' '] : Str) ++ '=' :: (' ' :: "sine(".toList) := rfl
    have hlineEq : x ++ " = sine(".toList ++ fs ++ ", ".toList ++ ds
          ++ ")".toList
        = (x ++ [' ']) ++ '=' :: (' ' ::
            ("sine(".toList ++ (fs ++ (", ".toList ++ (ds ++ [')']))))) := by
      rw [hlit, show (")".toList : Str) = [')'] from rfl]
      simp [List.append_assoc]
    rw [hlineEq]
    set E : Str := "sine(".toList ++ (fs ++ (", ".toList ++ (ds ++ [')'])))
      with hEdef
    have hEcons : E = 's' ::
        ("ine(".toList ++ (fs ++ (", ".toList ++ (ds ++ [')'])))) := rfl
    have hEne : E ≠ [] := by
      rw [hEcons]
      exact List.cons_ne_nil _ _
    have hxsp : '=' ∉ x ++ [' '] := by
      simp only [List.mem_append, List.mem_singleton]
      rintro (h | h)
      · exact hx1 h
      · exact absurd h (by decide)
    have hEeq : '=' ∉ ' ' :: E := by
      rw [hEdef]
      simp only [List.mem_cons, List.mem_append]
      rintro (h | h | h | h | h | h)
      · exact absurd h (by decide)
      · exact absurd h (by decide)
      · exact hfs1 h
      · exact absurd h (by decide)
      · exact hds1 h
      · exact absurd h (by decide)
    have hinc : jsIncludes '=' ((x ++ [' ']) ++ '=' :: (' ' :: E)) = true :=
      jsIncludes_iff.mpr (by simp)
    have hsplit : jsSplit '=' ((x ++ [' ']) ++ '=' :: (' ' :: E))
        = [x ++ [' '], ' ' :: E] := by
      rw [jsSplit_append _ hxsp, jsSplit_not_mem hEeq]
    have ht1 : jsTrim (x ++ [' ']) = x := by
      rw [jsTrim_append_space hspace, hx2]
    have hE1 : jsTrim (' ' :: E) = E := by
      rw [jsTrim_cons_space hspace]
      refine jsTrim_of_ends
        ⟨'s', "ine(".toList ++ (fs ++ (", ".toList ++ (ds ++ [')']))),
          hEcons, by decide⟩
        ⟨"sine(".toList ++ (fs ++ (", ".toList ++ ds)), ')', ?_, by decide⟩
      rw [hEdef]
      simp [List.append_assoc]
    have hm1 : '(' ∉ fs ++ (", ".toList ++ ds) := by
      simp only [List.mem_append]
      rintro (h | h | h)
      · exact hfs2 h
      · exact absurd h (by decide)
      · exact hds2 h
    have hm2 : ')' ∉ fs ++ (", ".toList ++ ds) := by
      simp only [List.mem_append]
      rintro (h | h | h)
      · exact hfs3 h
      · exact absurd h (by decide)
      · exact hds3 h
    have hidx : V1.idxOfChar '(' E = some 4 := by
      rw [hEdef]
      exact idxOfChar_append (a := "sine".toList) _ (by decide)
    have hfn : jsTrim (E.take 4) = "sine".toList := by
      have h4 : E.take 4 = "sine".toList := by
        rw [show E = "sine".toList
          ++ ('(' :: (fs ++ (", ".toList ++ (ds ++ [')'])))) from rfl,
          show (4 : ℕ) = ("sine".toList).length from rfl]
        exact List.take_left _ _
      rw [h4]
      decide
    have hErw : E = "sine".toList
        ++ '(' :: ((fs ++ (", ".toList ++ ds)) ++ [')']) := by
      rw [show E = "sine".toList
        ++ ('(' :: (fs ++ (", ".toList ++ (ds ++ [')'])))) from rfl]
      simp [List.append_assoc]
    have hfmp : V1.findMatchingParen E
        = .ok (4 + 1 + (fs ++ (", ".toList ++ ds)).length) := by
      rw [hErw]
      exact findMatchingParen_shape "sine".toList (fs ++ (", ".toList ++ ds))
        (by decide) (by decide) hm1 hm2
    have hEB : E = "sine(".toList
        ++ ((fs ++ (", ".toList ++ ds)) ++ [')']) := by
      rw [hEdef]
      simp [List.append_assoc]
    have hargs : jsTrim ((E.take
          (4 + 1 + (fs ++ (", ".toList ++ ds)).length)).drop (4 + 1))
        = fs ++ (", ".toList ++ ds) := by
      have htk : E.take (4 + 1 + (fs ++ (", ".toList ++ ds)).length)
          = "sine(".toList ++ (fs ++ (", ".toList ++ ds)) := by
        rw [hEB, show (4 + 1 + (fs ++ (", ".toList ++ ds)).length)
            = "sine(".toList.length + (fs ++ (", ".toList ++ ds)).length
            from rfl,
          List.take_append, List.take_left]
      rw [htk, show (4 + 1 : ℕ) = "sine(".toList.length from rfl,
        List.drop_left]
      refine jsTrim_of_ends ⟨cf, fr ++ (", ".toList ++ ds), ?_, hcf⟩
        ⟨fs ++ (", ".toList ++ dm), dy, ?_, hdy⟩
      · rw [hfsC]
        rfl
      · rw [hdsC]
        simp [List.append_assoc]
    have hMne : fs ++ (", ".toList ++ ds) ≠ [] := by
      rw [hfsC]
      simp
    have hc2 : ',' ∉ ' ' :: ds := by
      simp only [List.mem_cons]
      rintro (h | h)
      · exact absurd h (by decide)
      · exact hds4 h
    have hpargs : V1.parseArgsWith (V1.evalExpr fuel ws)
          (fs ++ (", ".toList ++ ds)) "sine".toList
        = .ok (.vals [.num f, .num d]) := by
      unfold V1.parseArgsWith
      rw [if_neg hMne, if_neg (by decide : ¬("sine".toList = "matrix".toList)),
        if_neg (fun hch => absurd hch.1 (by decide))]
      have hsplitM : jsSplit ',' (fs ++ (", ".toList ++ ds))
          = [fs, ' ' :: ds] := by
        rw [show fs ++ (", ".toList ++ ds) = fs ++ ',' :: (' ' :: ds) from rfl,
          jsSplit_append _ hfs4, jsSplit_not_mem hc2]
      rw [hsplitM]
      simp [List.mapM, List.mapM.loop, hfs5, hf, hds5, hd,
        jsTrim_cons_space hspace, Bind.bind, Except.bind, Pure.pure,
        Except.pure, Except.map]
    have hIncParen : jsIncludes '(' E = true := by
      refine jsIncludes_iff.mpr ?_
      rw [hEdef]
      exact List.mem_append.mpr (Or.inl (by decide))
    have heval : V1.evalExpr (fuel + 1) ws E
        = .ok (.sig ⟨(List.range (⌊d * (44100 : ℚ)⌋).toNat).map
            (V1.sineSample f 44100 1 0), 44100⟩) := by
      simp only [V1.evalExpr]
      rw [if_neg hEne, if_pos hIncParen]
      unfold V1.evalFnCallWith
      simp only [hidx, Option.getD_some, hfn, hfmp, hargs, hsine, hpargs]
      simp only [V1.applyBuiltin]
      rw [generateSine_ok f d hd0]
      simp [Except.map]
    have hcore : V1.executeLineCore (fuel + 1) ws
          ((x ++ [' ']) ++ '=' :: (' ' :: E))
        = .ok (V1.setVar ws x
            (.sig ⟨(List.range (⌊d * (44100 : ℚ)⌋).toNat).map
              (V1.sineSample f 44100 1 0), 44100⟩),
            x ++ " = ".toList ++ V1.formatOutput
              (.sig ⟨(List.range (⌊d * (44100 : ℚ)⌋).toNat).map
                (V1.sineSample f 44100 1 0), 44100⟩)) := by
      unfold V1.executeLineCore
      rw [if_pos hinc, hsplit]
      simp only [List.map_cons, List.map_nil, ht1, hE1]
      rw [if_neg (fun h => h.elim hx3 hEne), heval]
    unfold V1.executeLine
    rw [if_neg (by simp), hcore]
    rfl
  · -- getValue after the binding
    unfold V1.getValue
    exact lookupVar_setVar_self ws x _
  · simp
  · rfl
  · intro v hv
    rcases List.mem_map.mp hv with ⟨i, hi, rfl⟩
    exact sineSample_bounded f i

/-- Witness for C5: `x = sine(2, 1)` on a fresh workspace. -/
theorem sine_assignment_witness :
    ∃ sig : V1.Signal,
      V1.executeLine (0 + 1) V1.initWs
          ("x".toList ++ " = sine(".toList ++ "2".toList ++ ", ".toList
            ++ "1".toList ++ ")".toList)
        = .ok (V1.setVar V1.initWs "x".toList (.sig sig),
            "x".toList ++ " = ".toList ++ V1.formatOutput (.sig sig))
      ∧ V1.getValue (V1.setVar V1.initWs "x".toList (.sig sig)) "x".toList
          = some (.sig sig)
      ∧ sig.data.length = (⌊(1 : ℚ) * (44100 : ℚ)⌋).toNat
      ∧ sig.sampleRate = 44100
      ∧ ∀ v ∈ sig.data, ∃ t : ℝ, v = .fin t ∧ |t| ≤ 1 :=
  sine_assignment 0 V1.initWs "x".toList "2".toList "1".toList 2 1
    (by decide) (by decide) (by decide)
    (by decide) (by decide) (by decide) (by decide) (by decide) (by decide)
    (by decide) (by decide) (by decide) (by decide) (by decide) (by decide)
    (by decide) (by decide) (by decide) rfl

end Mats
